import Mathlib

/-!
Verification of the ops coordination engine of `scripts/shogun-ops.py`
(Agentic-SDD).  The Python source is shallowly embedded: every definition
below transcribes a function of the source (named after it), machine
integers are `Nat`/`Int` with explicit reductions modulo `2 ^ 32` where the
source relies on 32-bit wraparound (inside SHA-256), external processes
(`gh`, `extract-issue-files.py`, `worktree.sh`) are oracle parameters, and
functions that raise `RuntimeError` return `Except String _`.
-/

namespace ShogunOps

/-! ## UTF-8 encoding of strings

`str.encode("utf-8")` used by `decision_dedupe_key` /
`skill_candidate_dedupe_key`: the standard 1-4 byte encoding of each code
point, as a list of byte values. -/

def charUtf8 (c : Char) : List Nat :=
  let n := c.toNat
  if n < 128 then [n]
  else if n < 2048 then [192 + n / 64, 128 + n % 64]
  else if n < 65536 then [224 + n / 4096, 128 + (n / 64) % 64, 128 + n % 64]
  else [240 + n / 262144, 128 + (n / 4096) % 64, 128 + (n / 64) % 64, 128 + n % 64]

def utf8Bytes (s : String) : List Nat :=
  (s.data.map charUtf8).flatten

/-! ## SHA-256

`hashlib.sha256(...).hexdigest()`.  Words are `Nat` values kept below
`2 ^ 32` by `w32`. -/

def w32 (x : Nat) : Nat := x % 4294967296

def rotr32 (n x : Nat) : Nat :=
  w32 (Nat.lor (x >>> n) (x <<< (32 - n)))

def shaCh (e f g : Nat) : Nat :=
  Nat.xor (Nat.land e f) (Nat.land (Nat.xor e 4294967295) g)

def shaMaj (a b c : Nat) : Nat :=
  Nat.xor (Nat.xor (Nat.land a b) (Nat.land a c)) (Nat.land b c)

def shaBigSigma0 (a : Nat) : Nat :=
  Nat.xor (Nat.xor (rotr32 2 a) (rotr32 13 a)) (rotr32 22 a)

def shaBigSigma1 (e : Nat) : Nat :=
  Nat.xor (Nat.xor (rotr32 6 e) (rotr32 11 e)) (rotr32 25 e)

def shaSmallSigma0 (x : Nat) : Nat :=
  Nat.xor (Nat.xor (rotr32 7 x) (rotr32 18 x)) (x >>> 3)

def shaSmallSigma1 (x : Nat) : Nat :=
  Nat.xor (Nat.xor (rotr32 17 x) (rotr32 19 x)) (x >>> 10)

def shaK : List Nat :=
  [1116352408, 1899447441, 3049323471, 3921009573,
   961987163, 1508970993, 2453635748, 2870763221,
   3624381080, 310598401, 607225278, 1426881987,
   1925078388, 2162078206, 2614888103, 3248222580,
   3835390401, 4022224774, 264347078, 604807628,
   770255983, 1249150122, 1555081692, 1996064986,
   2554220882, 2821834349, 2952996808, 3210313671,
   3336571891, 3584528711, 113926993, 338241895,
   666307205, 773529912, 1294757372, 1396182291,
   1695183700, 1986661051, 2177026350, 2456956037,
   2730485921, 2820302411, 3259730800, 3345764771,
   3516065817, 3600352804, 4094571909, 275423344,
   430227734, 506948616, 659060556, 883997877,
   958139571, 1322822218, 1537002063, 1747873779,
   1955562222, 2024104815, 2227730452, 2361852424,
   2428436474, 2756734187, 3204031479, 3329325298]

def shaH0 : List Nat :=
  [1779033703, 3144134277, 1013904242, 2773480762,
   1359893119, 2600822924, 528734635, 1541459225]

/-- Big-endian split of a byte list into 32-bit words. -/
def bytesToWords : List Nat → List Nat
  | a :: b :: c :: d :: rest => (a * 16777216 + b * 65536 + c * 256 + d) :: bytesToWords rest
  | _ => []

/-- Extend the 16 message words to 64 (`n` is the number of words still
to append, 48 at the top call). -/
def shaExtend : Nat → List Nat → List Nat
  | 0, ws => ws
  | n + 1, ws =>
    let len := ws.length
    let g : Nat → Nat := fun k => ws.getD (len - k) 0
    let next := w32 (g 16 + shaSmallSigma0 (g 15) + g 7 + shaSmallSigma1 (g 2))
    shaExtend n (ws ++ [next])

def shaRound (st : List Nat) (kw : Nat × Nat) : List Nat :=
  match st with
  | [a, b, c, d, e, f, g, h] =>
    let t1 := w32 (h + shaBigSigma1 e + shaCh e f g + kw.1 + kw.2)
    let t2 := w32 (shaBigSigma0 a + shaMaj a b c)
    [w32 (t1 + t2), a, b, c, w32 (d + t1), e, f, g]
  | other => other

def shaCompress (h : List Nat) (block : List Nat) : List Nat :=
  let ws := shaExtend 48 (bytesToWords block)
  let st := (shaK.zip ws).foldl shaRound h
  (h.zip st).map (fun p => w32 (p.1 + p.2))

/-- Cut a byte list into 64-byte blocks; `fuel` bounds the recursion (the
top call passes the list length, which suffices). -/
def toBlocks : Nat → List Nat → List (List Nat)
  | 0, _ => []
  | fuel + 1, bytes =>
    if bytes.isEmpty then []
    else bytes.take 64 :: toBlocks fuel (bytes.drop 64)

def shaChunks (h : List Nat) (bytes : List Nat) : List Nat :=
  (toBlocks bytes.length bytes).foldl shaCompress h

def eightBytesBE (n : Nat) : List Nat :=
  (List.range 8).map (fun i => (n >>> (56 - 8 * i)) % 256)

def shaPad (msg : List Nat) : List Nat :=
  let L := msg.length
  let z := (55 + 64 - L % 64) % 64
  msg ++ [128] ++ List.replicate z 0 ++ eightBytesBE (L * 8)

def hexDigit (n : Nat) : Char :=
  if n < 10 then Char.ofNat (48 + n) else Char.ofNat (87 + n)

def toHex8 (n : Nat) : String :=
  String.mk ((List.range 8).map (fun i => hexDigit ((n >>> (28 - 4 * i)) % 16)))

def sha256hexBytes (msg : List Nat) : String :=
  String.join ((shaChunks shaH0 (shaPad msg)).map toHex8)

def sha256hex (s : String) : String :=
  sha256hexBytes (utf8Bytes s)

/-- Sanity check against the FIPS 180-2 test vector for "abc". -/
theorem sha256hex_abc :
    sha256hex "abc"
      = "ba7816bf8f01cfea414140de5dae2223b00361a396177a9cb410ff61f20015ad" := by
  decide

/-- Sanity check: the digest of the empty message. -/
theorem sha256hex_empty :
    sha256hex ""
      = "e3b0c44298fc1c149afbf4c8996fb92427ae41e4649b934ca495991b7852b855" := by
  decide

/-! ## Dedupe keys (`decision_dedupe_key`, `skill_candidate_dedupe_key`) -/

/-- `decision_dedupe_key(kind, issue, worker, payload)`: content hash over
`kind|issue=<issue>|worker=<worker>|<payload>`. -/
def decision_dedupe_key (kind : String) (issue : Int) (worker payload : String) : String :=
  "sha256:" ++ sha256hex (kind ++ "|issue=" ++ toString issue ++ "|worker=" ++ worker ++ "|" ++ payload)

/-- `skill_candidate_dedupe_key(issue, name, summary)`: content hash over
`skill_candidate|issue=<issue>|name=<name>|summary=<summary>` — note there
is no worker component. -/
def skill_candidate_dedupe_key (issue : Int) (name summary : String) : String :=
  "sha256:" ++ sha256hex ("skill_candidate|issue=" ++ toString issue ++ "|name=" ++ name ++ "|summary=" ++ summary)

/-! ## Python-style string helpers

All string manipulation is implemented over `List Char` by structural
recursion, so every definition evaluates inside the kernel. -/

def charStrip (l : List Char) : List Char :=
  ((l.dropWhile Char.isWhitespace).reverse.dropWhile Char.isWhitespace).reverse

/-- `str.strip()` (the source only ever strips ASCII whitespace in the
data this model covers). -/
def pyStrip (s : String) : String :=
  String.mk (charStrip s.data)

/-- Code-point comparison of strings, the order `sorted(...)` uses. -/
def strLe (a b : String) : Bool :=
  let rec go : List Char → List Char → Bool
    | [], _ => true
    | _ :: _, [] => false
    | x :: xs, y :: ys =>
      if x.toNat < y.toNat then true
      else if y.toNat < x.toNat then false
      else go xs ys
  go a.data b.data

def insertSorted (x : String) : List String → List String
  | [] => [x]
  | y :: ys => if strLe x y then x :: y :: ys else y :: insertSorted x ys

/-- `sorted(...)` on strings: ascending by code points. -/
def pySortedStrings (l : List String) : List String :=
  l.foldr insertSorted []

def dedupGo (seen : List String) : List String → List String
  | [] => []
  | x :: xs => if seen.contains x then dedupGo seen xs else x :: dedupGo (x :: seen) xs

/-- `sorted(set(...))` on strings. -/
def sortedDedup (l : List String) : List String :=
  pySortedStrings (dedupGo [] l)

/-- Normalisation applied throughout the source to string-list fields read
from YAML: `str(x).strip()`, dropping empties. -/
def stripList (l : List String) : List String :=
  (l.map pyStrip).filter (fun s => s ≠ "")

/-! ## Glob matching (`match_any_glob` and `fnmatch.fnmatchcase`)

`fnmatchcase` supports `*`, `?` and `[...]` character classes (with `!`
negation and `a-b` ranges; an unterminated `[` is a literal).  CPython's
`fnmatch.translate` pairs range hyphens greedily left to right, drops
reversed (empty) ranges, and treats a leading or trailing hyphen as a
literal; `parseClassItems` reproduces that pairing. -/

inductive ClassItem where
  | lit (c : Char) : ClassItem
  | range (lo hi : Char) : ClassItem
deriving Repr, DecidableEq

def parseClassItems : List Char → List ClassItem
  | [] => []
  | c :: '-' :: d :: rest => .range c d :: parseClassItems rest
  | c :: rest => .lit c :: parseClassItems rest

def classItemMatch (c : Char) : ClassItem → Bool
  | .lit d => c = d
  | .range lo hi => lo.toNat ≤ c.toNat && c.toNat ≤ hi.toNat

/-- Split the chars after `[` into the class body and the remainder of the
pattern, mirroring the closing-bracket scan of `fnmatch.translate` (a `]`
directly after `[` or `[!` is part of the body); `none` when the class is
unterminated. -/
def splitClassBody (body : List Char) : Option (List Char × List Char) :=
  let rec go (acc : List Char) : List Char → Option (List Char × List Char)
    | [] => none
    | ']' :: rest => some (acc.reverse, rest)
    | c :: rest => go (c :: acc) rest
  match body with
  | ']' :: rest => (go [']'] rest)
  | rest => go [] rest

def parseClass (afterBracket : List Char) :
    Option (Bool × List ClassItem × List Char) :=
  match afterBracket with
  | '!' :: rest =>
    match splitClassBody rest with
    | some (body, rem) => some (true, parseClassItems body, rem)
    | none => none
  | rest =>
    match splitClassBody rest with
    | some (body, rem) => some (false, parseClassItems body, rem)
    | none => none

/-- Backtracking matcher for one path segment against one pattern segment
(the semantics of the regex `fnmatch.translate` builds).  `fuel` bounds the
recursion; the wrapper passes enough for full exploration. -/
def fnmatchGo : Nat → List Char → List Char → Bool
  | 0, _, _ => false
  | fuel + 1, s, pat =>
    match s, pat with
    | [], [] => true
    | [], '*' :: ps => fnmatchGo fuel [] ps
    | [], _ => false
    | _ :: _, [] => false
    | c :: srest, '*' :: ps =>
      fnmatchGo fuel (c :: srest) ps || fnmatchGo fuel srest ('*' :: ps)
    | _ :: srest, '?' :: ps => fnmatchGo fuel srest ps
    | c :: srest, '[' :: ps =>
      match parseClass ps with
      | none => c == '[' && fnmatchGo fuel srest ps
      | some (neg, items, rest) =>
        (items.any (classItemMatch c) != neg) && fnmatchGo fuel srest rest
    | c :: srest, p :: ps => c == p && fnmatchGo fuel srest ps

/-- `fnmatch.fnmatchcase(seg, pat)`: each recursive step consumes a
character of the segment or of the pattern, so `len(seg) + len(pat) + 1`
fuel is enough. -/
def fnmatchcase (seg pat : String) : Bool :=
  fnmatchGo (seg.length + pat.length + 1) seg.data pat.data

/-- The inner `match_parts` of `match_any_glob`: `**` matches zero or more
path segments (trying every split, as the source's index loop does), any
other pattern segment must `fnmatchcase`-match one path segment.  A
trailing `**` matches the whole rest. -/
def matchPartsGo : Nat → List String → List String → Bool
  | 0, _, _ => false
  | _ + 1, parts, [] => parts.isEmpty
  | fuel + 1, parts, pat :: pats =>
    if pat = "**" then
      if pats.isEmpty then true
      else
        matchPartsGo fuel parts pats ||
          (match parts with
           | [] => false
           | _ :: rest => matchPartsGo fuel rest (pat :: pats))
    else
      match parts with
      | [] => false
      | seg :: rest => fnmatchcase seg pat && matchPartsGo fuel rest pats

def matchParts (parts pats : List String) : Bool :=
  matchPartsGo (parts.length + pats.length + 1) parts pats

/-- `s.split("/")` at the character level. -/
def splitSlashGo (acc : List Char) : List Char → List (List Char)
  | [] => [acc.reverse]
  | c :: rest =>
    if c = '/' then acc.reverse :: splitSlashGo [] rest
    else splitSlashGo (c :: acc) rest

/-- Normalisation `match_any_glob` applies to the path and to each
pattern: strip, backslashes to slashes, drop a leading `./`. -/
def globNormalize (s : String) : String :=
  let t := (pyStrip s).data.map (fun c => if c = '\\' then '/' else c)
  match t with
  | '.' :: '/' :: rest => String.mk rest
  | other => String.mk other

def splitSegments (s : String) : List String :=
  ((splitSlashGo [] s.data).map String.mk).filter (fun seg => seg ≠ "")

/-- `match_any_glob(path, patterns)`. -/
def match_any_glob (path : String) (patterns : List String) : Bool :=
  let p := globNormalize path
  if p = "" || p = "." || p = ".." then false
  else
    let pathParts := splitSegments p
    patterns.any (fun rawPat =>
      let pat := globNormalize rawPat
      if pat = "" then false
      else matchParts pathParts (splitSegments pat))

theorem match_any_glob_globstar_example :
    match_any_glob "src/a/b/c.py" ["src/**"] = true ∧
    match_any_glob "src/a/b/c.py" ["**/*.py"] = true ∧
    match_any_glob "docs/intro.md" ["*.md"] = false ∧
    match_any_glob "./docs/intro.md" ["docs/*.md"] = true ∧
    match_any_glob ".agent/x.md" [".agent/**"] = true := by
  decide

/-! ## Worker ids, slugs, ids, integers -/

def isWorkerChar (c : Char) : Bool :=
  ('A' ≤ c && c ≤ 'Z') || ('a' ≤ c && c ≤ 'z') || ('0' ≤ c && c ≤ '9') ||
    c = '_' || c = '-'

/-- `validate_worker_id`: strip, then require a non-empty string over the
allow-list `A-Z a-z 0-9 _ -`. -/
def validate_worker_id (value : String) : Except String String :=
  let v := pyStrip value
  if v = "" then
    .error "worker id is required (set --worker or AGENTIC_SDD_WORKER)"
  else if v.data.all isWorkerChar then .ok v
  else .error ("invalid worker id: " ++ v ++ " (allowed: A-Z a-z 0-9 _ -)")

/-- `slugify`: lowercase, keep `a-z0-9` runs joined by single dashes, no
leading/trailing dash, `"issue"` when nothing survives.  (`str.lower` is
modelled by `Char.toLower`, which agrees on the ASCII titles this
development evaluates.) -/
def slugify (s : String) : String :=
  let lowered := s.data.map Char.toLower
  let build := lowered.foldl
    (fun (acc : List Char × Bool) ch =>
      if ('a' ≤ ch && ch ≤ 'z') || ('0' ≤ ch && ch ≤ '9') then
        (ch :: acc.1, false)
      else if acc.2 then acc
      else ('-' :: acc.1, true))
    ([], false)
  let collapsed := build.1.reverse
  let noLead := collapsed.dropWhile (fun c => c == '-')
  let core := (noLead.reverse.dropWhile (fun c => c == '-')).reverse
  if core.isEmpty then "issue" else String.mk core

/-- `as_int` on a value already parsed from YAML (absent values error; the
source's string-to-int coercion is outside this typed model). -/
def as_int (value : Option Int) (context : String) : Except String Int :=
  match value with
  | none => .error ("missing integer value: " ++ context)
  | some n => .ok n

/-- `normalize_decision_id`. -/
def normalize_decision_id (raw : String) : Except String String :=
  let s0 := pyStrip raw
  let s :=
    match s0.data.reverse with
    | 'l' :: 'm' :: 'a' :: 'y' :: '.' :: rest => String.mk rest.reverse
    | _ => s0
  if s = "" then .error "decision-id must be non-empty"
  else if s.data.any (fun c => c == '/' || c == '\\') then
    .error "decision-id must not contain path separators"
  else .ok s

def pyTake (n : Nat) (s : String) : String := String.mk (s.data.take n)

def joinComma : List String → String
  | [] => ""
  | [x] => x
  | x :: xs => x ++ "," ++ joinComma xs

/-! ## Data model

The YAML records of §3 of the design.  Absent YAML fields read through
`.get(...) or <default>` are modelled by the default field values. -/

/-- Read-only issue context attached to research blocker Decisions
(`fetch_issue_context_for_research`, an external `gh` call). -/
structure IssueContext where
  repo : String := ""
  number : Int := 0
  title : String := ""
  url : String := ""
  labels : List String := []
deriving Repr, DecidableEq

structure Submitter where
  worker : String := ""
  checkin_id : String := ""
  timestamp : String := ""
deriving Repr, DecidableEq

structure Response where
  timestamp : String := ""
  worker : String := ""
  checkin_id : String := ""
  summary : String := ""
deriving Repr, DecidableEq

/-- The `request` mapping of a Decision; the union of the type-specific
field sets, with empty defaults for fields a given type does not use. -/
structure Request where
  worker : String := ""
  reason : String := ""
  requested_files : List String := []
  options : List String := []
  severity : String := ""
  forbidden_files : List String := []
  checkin_id : String := ""
  category : String := ""
  workers : List String := []
  submitters : List Submitter := []
  name : String := ""
  summary : String := ""
  issues : List Int := []
  details : String := ""
deriving Repr, DecidableEq

/-- A Decision record.  `dtype` embeds the YAML field `type`. -/
structure Decision where
  decision_id : String := ""
  created_at : String := ""
  issue : Option Int := none
  dtype : String := ""
  dedupe_key : String := ""
  request : Request := {}
  responses : List Response := []
  resolved_at : String := ""
  resolved_by : String := ""
  resolution_summary : String := ""
  issue_context : Option IssueContext := none
deriving Repr, DecidableEq

/-- A Checkin message.  `respond_to_decision` embeds
`respond_to.decision_id`, `requested_files` embeds
`needs.contract_expansion.requested_files`, `skills` embeds
`candidates.skills` as (name, summary) pairs. -/
structure Checkin where
  checkin_id : String := ""
  timestamp : String := ""
  worker : String := ""
  issue : Option Int := none
  phase : String := ""
  progress_percent : Option Int := none
  summary : String := ""
  files_changed : List String := []
  needs_approval : Bool := false
  requested_files : List String := []
  blockers : List String := []
  skills : List (String × String) := []
  respond_to_decision : String := ""
deriving Repr, DecidableEq

structure IssueEntry where
  title : String := ""
  labels : List String := []
  assigned_to : String := ""
  phase : String := ""
  impl_mode : String := ""
  progress_percent : Option Int := none
  allowed_files : List String := []
  forbidden_files : List String := []
  last_checkin_at : String := ""
  last_checkin_id : String := ""
  last_checkin_summary : String := ""
  worktree_path : String := ""
deriving Repr, DecidableEq

structure BlockedItem where
  issue : Option String := none
  reason : String := ""
deriving Repr, DecidableEq

/-- Entry of the `recent_checkins` ring.  The source stores
`checkin.get("issue") or ""`, so an issue number of `0` degenerates to the
empty value, modelled by `none`. -/
structure RecentCheckin where
  timestamp : String := ""
  worker : String := ""
  issue : Option Int := none
  summary : String := ""
deriving Repr, DecidableEq

/-- The mutable State record (`state.yaml`).  `issues` is an
insertion-ordered map keyed by `str(issue)`.  The derived projections
`action_required` / `skill_candidates_pending` are pure functions of the
Decision queue, rebuilt at sweep end, and are outside the modelled claim
surface. -/
structure StateRec where
  updated_at : String := ""
  issues : List (String × IssueEntry) := []
  blocked : List BlockedItem := []
  recent_checkins : List RecentCheckin := []
deriving Repr, DecidableEq

def lookupEntry (issues : List (String × IssueEntry)) (key : String) : Option IssueEntry :=
  (issues.find? (fun p => p.1 == key)).map (fun p => p.2)

/-- Write an entry back under its key, preserving dict insertion order;
a new key is appended (the `dict.setdefault` behaviour of
`ensure_issue_entry`). -/
def setEntry (issues : List (String × IssueEntry)) (key : String) (e : IssueEntry) :
    List (String × IssueEntry) :=
  if issues.any (fun p => p.1 == key) then
    issues.map (fun p => if p.1 == key then (key, e) else p)
  else issues ++ [(key, e)]

/-- `record_recent_checkin`: push the summary of a checkin onto the ring,
keeping the 20 most recent. -/
def record_recent_checkin (state : StateRec) (c : Checkin) : StateRec :=
  let item : RecentCheckin :=
    { timestamp := c.timestamp, worker := c.worker,
      issue := match c.issue with | some 0 => none | v => v,
      summary := c.summary }
  { state with recent_checkins := (item :: state.recent_checkins).take 20 }

def blockedIssueKey (b : BlockedItem) : String := b.issue.getD ""

/-- `ensure_blocked_reason`: record a blocked-reason tag once per
(issue, reason) pair. -/
def ensure_blocked_reason (state : StateRec) (issue : Int) (reason : String) : StateRec :=
  let key := toString issue
  if state.blocked.any (fun b => blockedIssueKey b == key && b.reason == reason) then state
  else { state with blocked := state.blocked ++ [{ issue := some key, reason }] }

/-! ## The decision queue -/

/-- Working state of a sweep: the State record, the live decision queue,
the decision archive, the `_DECISION_SEQ` counter and the sweep's clock
readings (timestamps are oracle data to the model). -/
structure OpsSt where
  state : StateRec := {}
  store : List Decision := []
  archive : List Decision := []
  seq : Nat := 0
  nowIso : String := ""
  nowCompact : String := ""
deriving Repr, DecidableEq

def pad3 (n : Nat) : String :=
  (if n < 10 then "00" else if n < 100 then "0" else "") ++ toString n

def issuePart : Option Int → String
  | some n => if n = 0 then "global" else toString n
  | none => "global"

/-- `write_decision`: assign a fresh `DEC-<ts>-<scope>-<seq>` id (unless
one is preset) and append the record to the queue.  The source's
filename-collision loop cannot fire in this model because `_DECISION_SEQ`
makes ids unique. -/
def write_decision (st : OpsSt) (d : Decision) : OpsSt :=
  let seq := st.seq + 1
  let id :=
    if d.decision_id ≠ "" then d.decision_id
    else "DEC-" ++ st.nowCompact ++ "-" ++ issuePart d.issue ++ "-" ++ pad3 seq
  { st with seq, store := st.store ++ [{ d with decision_id := id }] }

/-- `existing_decision_dedupe_keys`: the non-empty `dedupe_key`s of the
live queue.  The source loads this set once per sweep and keeps it in
sync with every write; recomputing it from the queue is equivalent
because every dedupe-keyed write appends its key. -/
def dedupeKeys (store : List Decision) : List String :=
  (store.map (fun d => d.dedupe_key)).filter (fun k => k ≠ "")

/-- `existing_decision_dedupe_key_to_path`, as a lookup of the (unique —
§3 invariant) queue record with the given key. -/
def findByKey (store : List Decision) (k : String) : Option Decision :=
  store.find? (fun d => d.dedupe_key == k)

def replaceFirst (p : Decision → Bool) (new : Decision) : List Decision → List Decision
  | [] => []
  | x :: xs => if p x then new :: xs else x :: replaceFirst p new xs

def removeFirst (p : Decision → Bool) : List Decision → List Decision
  | [] => []
  | x :: xs => if p x then xs else x :: removeFirst p xs

/-! ## Collector -/

def isPrefixChars : List Char → List Char → Bool
  | [], _ => true
  | _ :: _, [] => false
  | p :: ps, c :: cs => p == c && isPrefixChars ps cs

/-- A blocker string is a research request when it starts with the
`調査依頼:` marker (after stripping). -/
def is_research_request (b : String) : Bool :=
  isPrefixChars "調査依頼:".data (pyStrip b).data

/-- `has_research_request_blocker`. -/
def has_research_request_blocker (c : Checkin) : Bool :=
  c.blockers.any is_research_request

/-- `emit_decisions_from_checkin`: Decisions for `needs.approval`,
`needs.contract_expansion.requested_files`, each blocker, and each skill
candidate — each guarded by its dedupe key; `skill_candidate` hits merge
the submitter into the existing record instead. -/
def emit_decisions_from_checkin (issue : Int) (worker : String) (c : Checkin)
    (issue_context : Option IssueContext) (st : OpsSt) : Except String OpsSt := do
  let st1 :=
    if c.needs_approval then
      let k := decision_dedupe_key "approval_required" issue worker "v1"
      if (dedupeKeys st.store).contains k then st
      else
        write_decision st
          { created_at := st.nowIso, issue := some issue,
            dtype := "approval_required", dedupe_key := k,
            request := { worker, reason := "承認が必要（checkin.needs.approval=true）",
                         checkin_id := c.checkin_id } }
    else st
  let requested := sortedDedup (stripList c.requested_files)
  let st2 :=
    if ¬ requested.isEmpty then
      let payload := "requested_files=" ++ joinComma requested
      let k := decision_dedupe_key "contract_expansion" issue worker payload
      if (dedupeKeys st1.store).contains k then st1
      else
        write_decision st1
          { created_at := st1.nowIso, issue := some issue,
            dtype := "contract_expansion", dedupe_key := k,
            request := { worker,
                         reason := "契約拡張が必要（checkin.needs.contract_expansion.requested_files）",
                         requested_files := requested, checkin_id := c.checkin_id } }
    else st1
  let st3 := (stripList c.blockers).foldl
    (fun acc b =>
      let k := decision_dedupe_key "blocker" issue worker ("blocker=" ++ b)
      if (dedupeKeys acc.store).contains k then acc
      else
        let research := is_research_request b
        write_decision acc
          { created_at := acc.nowIso, issue := some issue,
            dtype := "blocker", dedupe_key := k,
            request := { worker, reason := b, checkin_id := c.checkin_id,
                         category := if research then "research" else "" },
            issue_context := if research then issue_context else none })
    st2
  c.skills.foldlM
    (fun acc sk => do
      let name := pyStrip sk.1
      let summary := pyStrip sk.2
      if name = "" then
        throw "invalid checkin candidates.skills[].name (required)"
      else if summary = "" then
        throw "invalid checkin candidates.skills[].summary (required)"
      else
        let k := skill_candidate_dedupe_key issue name summary
        let checkin_id := pyStrip c.checkin_id
        let submitter : Submitter :=
          { worker, checkin_id, timestamp := c.timestamp }
        if (dedupeKeys acc.store).contains k then
          match findByKey acc.store k with
          | none => pure acc
          | some obj =>
            if obj.dtype ≠ "skill_candidate" then
              throw "dedupe_key collision across decision types"
            else
              let req := obj.request
              let workers0 := stripList req.workers
              let workers1 :=
                if workers0.isEmpty then
                  (let w0 := pyStrip req.worker
                   if w0 ≠ "" then [w0] else [])
                else workers0
              let workers2 :=
                if workers1.contains worker then workers1 else workers1 ++ [worker]
              let submitters0 := req.submitters.filterMap (fun s =>
                let w := pyStrip s.worker
                if w = "" then none
                else some { worker := w, checkin_id := pyStrip s.checkin_id,
                            timestamp := s.timestamp })
              let submitters1 :=
                if submitters0.isEmpty then
                  (let w0 := pyStrip req.worker
                   if w0 ≠ "" then
                     [{ worker := w0, checkin_id := pyStrip req.checkin_id,
                        timestamp := "" }]
                   else [])
                else submitters0
              let subKey := worker ++ "|" ++ checkin_id
              let seen := submitters1.map (fun s => s.worker ++ "|" ++ s.checkin_id)
              if seen.contains subKey then pure acc
              else
                let newObj :=
                  { obj with request :=
                      { req with workers := workers2,
                                 submitters := submitters1 ++ [submitter] } }
                pure { acc with
                  store := replaceFirst (fun d => d.dedupe_key == k) newObj acc.store }
        else
          pure (write_decision acc
            { created_at := acc.nowIso, issue := some issue,
              dtype := "skill_candidate", dedupe_key := k,
              request := { worker, workers := [worker], submitters := [submitter],
                           reason := name ++ ": " ++ summary, name, summary,
                           checkin_id } }))
    st3

/-- Contract enforcement inputs (lines 1084-1096): the changed files that
match no `allowed_files` pattern (skipped when `allowed_files` is empty),
extended by the `forbidden_files` hits; returns
(requested offending paths, forbidden hits), each sorted and
deduplicated. -/
def contract_offending (entry : IssueEntry) (c : Checkin) : List String × List String :=
  let files_changed := stripList c.files_changed
  let allowed := stripList entry.allowed_files
  let forbidden := stripList entry.forbidden_files
  let requested0 :=
    if ¬ allowed.isEmpty then
      files_changed.filter (fun f => ¬ match_any_glob f allowed)
    else []
  let requested1 := sortedDedup requested0
  let forbiddenHits := sortedDedup (files_changed.filter (fun f => match_any_glob f forbidden))
  let requested :=
    if ¬ forbiddenHits.isEmpty then sortedDedup (requested1 ++ forbiddenHits)
    else requested1
  (requested, forbiddenHits)

/-- The trigger condition of line 1098:
`forbidden_hits or (requested_files and allowed_files)`. -/
def contract_violationb (entry : IssueEntry) (c : Checkin) : Bool :=
  let off := contract_offending entry c
  ¬ off.2.isEmpty || (¬ off.1.isEmpty && ¬ (stripList entry.allowed_files).isEmpty)

/-- The dedupe key of the enforcement Decision (line 1100). -/
def contract_key (issue : Int) (worker : String) (requested : List String) : String :=
  decision_dedupe_key "contract_expansion" issue worker
    ("requested_files=" ++ joinComma requested)

/-- Pass-1 processing of one normal checkin (`cmd_collect`, lines
1037-1146): update the `IssueEntry`, run contract enforcement, emit
Decisions, record the checkin into the ring.  `ctxOracle` stands for the
external `gh issue view` of `fetch_issue_context_for_research`. -/
def collectPass1Item (ctxOracle : Int → IssueContext) (issue : Int) (c : Checkin)
    (st : OpsSt) : Except String OpsSt := do
  let key := toString issue
  let entry0 := (lookupEntry st.state.issues key).getD {}
  let entry1 := { entry0 with
      assigned_to := if c.worker ≠ "" then c.worker else entry0.assigned_to,
      phase := if c.phase ≠ "" then c.phase
               else if entry0.phase ≠ "" then entry0.phase else "backlog",
      progress_percent :=
        some ((match c.progress_percent with
               | some v => some v
               | none => entry0.progress_percent).getD 0),
      last_checkin_at := c.timestamp,
      last_checkin_id := c.checkin_id,
      last_checkin_summary := c.summary }
  let issue_context :=
    if has_research_request_blocker c then some (ctxOracle issue) else none
  let off := contract_offending entry1 c
  let requested := off.1
  let forbiddenHits := off.2
  let violation := contract_violationb entry1 c
  let stepA :=
    if violation then
      let k := contract_key issue c.worker requested
      let stA :=
        if (dedupeKeys st.store).contains k then st
        else
          write_decision st
            { created_at := st.nowIso, issue := some issue,
              dtype := "contract_expansion", dedupe_key := k,
              request := { worker := c.worker,
                           reason := "契約逸脱を検知（collect: changes.files_changed vs contract.allowed_files）",
                           requested_files := requested,
                           options := ["拡張", "差し戻し", "Issue分割", "別Issueへ移動"],
                           severity := if ¬ forbiddenHits.isEmpty then "major" else "normal",
                           forbidden_files := forbiddenHits,
                           checkin_id := c.checkin_id } }
      let stB := { stA with state := ensure_blocked_reason stA.state issue "contract_violation" }
      let stC :=
        if ¬ forbiddenHits.isEmpty then
          { stB with state := ensure_blocked_reason stB.state issue "contract_forbidden_violation" }
        else stB
      (stC, { entry1 with phase := "blocked" })
    else (st, entry1)
  let st3 := { stepA.1 with
      state := { stepA.1.state with
        issues := setEntry stepA.1.state.issues key stepA.2 } }
  let st4 ← emit_decisions_from_checkin issue c.worker c issue_context st3
  pure { st4 with state := record_recent_checkin st4.state c }

/-- The response-list normalisation of `apply_research_response` (lines
948-963): reformat each stored entry, stripping its `checkin_id` and
dropping entries whose stripped `checkin_id` is empty. -/
def normalizeResponses (rs : List Response) : List Response :=
  rs.filterMap (fun r =>
    let cid := pyStrip r.checkin_id
    if cid = "" then none
    else some { timestamp := r.timestamp, worker := r.worker,
                checkin_id := cid, summary := r.summary })

/-- The response entry built from the responding checkin (lines 937-942);
note the `checkin_id` is *not* stripped here, unlike in
`normalizeResponses`. -/
def responseOfCheckin (c : Checkin) : Response :=
  { timestamp := c.timestamp, worker := c.worker,
    checkin_id := c.checkin_id, summary := c.summary }

/-- The updated Decision record (lines 948-973): append the response
unless its `checkin_id` is already present, and fill the `resolved_*`
fields only when currently unset. -/
def applyResponseRecord (d : Decision) (c : Checkin) : Decision :=
  let resp := responseOfCheckin c
  let responses0 := normalizeResponses d.responses
  let responses :=
    if responses0.any (fun r => r.checkin_id == resp.checkin_id) then responses0
    else responses0 ++ [resp]
  { d with
    responses := responses,
    resolved_at := if pyStrip d.resolved_at = "" then resp.timestamp else d.resolved_at,
    resolved_by := if pyStrip d.resolved_by = "" then resp.worker else d.resolved_by,
    resolution_summary :=
      if pyStrip d.resolution_summary = "" then resp.summary
      else d.resolution_summary }

/-- The record update of `apply_research_response`: verify type, category
and issue, then apply `applyResponseRecord`. -/
def apply_research_response_update (d : Decision) (c : Checkin)
    (decision_id : String) : Except String Decision :=
  if d.dtype ≠ "blocker" then
    .error ("respond_to is supported only for blocker decisions: " ++ decision_id)
  else if d.request.category ≠ "research" then
    .error ("respond_to is supported only for research blocker decisions: " ++ decision_id)
  else if (match d.issue, c.issue with
           | some a, some b => a ≠ b
           | _, _ => false : Bool) then
    .error ("respond_to issue mismatch: " ++ decision_id)
  else if (responseOfCheckin c).checkin_id = "" then
    .error ("invalid checkin (missing checkin_id) for respond_to: " ++ decision_id)
  else
    .ok (applyResponseRecord d c)

/-- `apply_research_response`: locate the Decision (queue first, then
archive), apply the update, and move a queue record to the archive
(auto-archive on first resolution). -/
def apply_research_response (st : OpsSt) (decision_id : String) (c : Checkin) :
    Except String OpsSt :=
  match st.store.find? (fun d => d.decision_id == decision_id) with
  | some d => do
    let d' ← apply_research_response_update d c decision_id
    pure { st with store := removeFirst (fun x => x.decision_id == decision_id) st.store,
                   archive := st.archive ++ [d'] }
  | none =>
    match st.archive.find? (fun d => d.decision_id == decision_id) with
    | some d => do
      let d' ← apply_research_response_update d c decision_id
      pure { st with archive := replaceFirst (fun x => x.decision_id == decision_id) d' st.archive }
    | none => .error ("decision not found: " ++ decision_id)

/-- `extract_respond_to_decision_id`. -/
def extract_respond_to_decision_id (c : Checkin) : Except String String :=
  let raw := pyStrip c.respond_to_decision
  if raw = "" then .ok "" else normalize_decision_id raw

/-- The item-building loop of `cmd_collect`: the worker identity comes
from the queue directory name (validated), never from the `worker` field
inside the file, which is overwritten. -/
def buildItem (dirWorker : String) (c : Checkin) : Except String (Int × Checkin) := do
  let issue ← as_int c.issue "checkin.issue"
  let w ← validate_worker_id dirWorker
  pure (issue, { c with worker := w })

/-- Pass 1 of `cmd_collect`: normal status reports (respond_to checkins
are skipped here). -/
def collectPass1 (ctxOracle : Int → IssueContext) (items : List (Int × Checkin))
    (st : OpsSt) : Except String OpsSt :=
  items.foldlM
    (fun acc item => do
      let rid ← extract_respond_to_decision_id item.2
      if rid ≠ "" then pure acc
      else collectPass1Item ctxOracle item.1 item.2 acc)
    st

/-- Pass 2 of `cmd_collect`: out-of-band responses; these never mutate
issue phase/assignee/progress. -/
def collectPass2 (items : List (Int × Checkin)) (st : OpsSt) : Except String OpsSt :=
  items.foldlM
    (fun acc item => do
      let rid ← extract_respond_to_decision_id item.2
      if rid = "" then pure acc
      else do
        let acc' ← apply_research_response acc rid item.2
        pure { acc' with state := record_recent_checkin acc'.state item.2 })
    st

/-- The lock-protected body of a collect sweep over the pending checkin
files, given as (worker directory, parsed file) pairs in the sorted
listing order of the queue. -/
def collect_sweep (ctxOracle : Int → IssueContext)
    (dirItems : List (String × Checkin)) (st : OpsSt) : Except String OpsSt := do
  let items ← dirItems.mapM (fun p => buildItem p.1 p.2)
  let st1 ← collectPass1 ctxOracle items st
  let st2 ← collectPass2 items st1
  pure { st2 with state := { st2.state with updated_at := st2.nowIso } }

/-! ## Single-writer lock and the collect command -/

/-- The durable store as the collect command sees it.  `acquire_lock`'s
`os.open(..., O_CREAT | O_EXCL)` is an atomic create-only step on this
state: it cannot touch an existing lock file. -/
structure OpsFS where
  lockExists : Bool := false
  lockContent : String := ""
  stateFile : Option StateRec := none
  checkins : List (String × Checkin) := []
  decisions : List Decision := []
  decisionsArchive : List Decision := []
deriving Repr, DecidableEq

/-- `acquire_lock`: exclusive creation; fails (without modifying the
store) whenever a lock file exists, succeeds and writes the pid payload
otherwise. -/
def acquire_lock (fs : OpsFS) (payload : String) : Except String OpsFS :=
  if fs.lockExists then .error "lock already exists (single-writer)"
  else .ok { fs with lockExists := true, lockContent := payload }

/-- The state-file part of `ensure_ops_layout`: create a default State
record only when none exists (the layout step never rewrites an existing
`state.yaml`). -/
def ensure_ops_layout_state (fs : OpsFS) (defaultState : StateRec) : OpsFS :=
  match fs.stateFile with
  | some _ => fs
  | none => { fs with stateFile := some defaultState }

/-- `cmd_collect` as invoked through `main`: layout, then lock, then the
sweep body, then release; a raised `RuntimeError` becomes exit code 1.
On the lock-failure path nothing after the layout step has run.  (On a
body error the source may already have written some decision files
before aborting; no claim exercises that path and this model rolls the
body back atomically there.) -/
def cmd_collect (ctxOracle : Int → IssueContext) (fs : OpsFS)
    (defaultState : StateRec) (nowIso nowCompact lockPayload : String) :
    Nat × OpsFS :=
  let fs1 := ensure_ops_layout_state fs defaultState
  match acquire_lock fs1 lockPayload with
  | .error _ => (1, fs1)
  | .ok fsL =>
    let st0 : OpsSt :=
      { state := fsL.stateFile.getD {}, store := fsL.decisions,
        archive := fsL.decisionsArchive, seq := 0,
        nowIso := nowIso, nowCompact := nowCompact }
    match collect_sweep ctxOracle fsL.checkins st0 with
    | .error _ => (1, { fsL with lockExists := false })
    | .ok stF =>
      (0, { fsL with
            lockExists := false,
            stateFile := some stF.state,
            decisions := stF.store,
            decisionsArchive := stF.archive,
            checkins := [] })

/-! ## Supervisor -/

/-- An issue returned by the tracker (`gh issue view/list` already
reduced to the fields the supervisor uses; label dicts are reduced to
their names as the source does). -/
structure Candidate where
  number : Int := 0
  title : String := ""
  labels : List String := []
deriving Repr, DecidableEq

/-- The configuration record (`config.yaml`): `none` models an absent
key. -/
structure Config where
  parallel_enabled : Option Bool := none
  parallel_max_workers : Option Int := none
  impl_mode_default : String := ""
  force_tdd_labels : List String := []
  workers : List String := []
deriving Repr, DecidableEq

structure Order where
  order_id : String := ""
  issued_at : String := ""
  worker : String := ""
  issue : Int := 0
  intent : String := ""
  impl_mode : String := ""
  worktree_path : String := ""
  allowed_files : List String := []
  forbidden_files : List String := []
  required_steps : List String := []
deriving Repr, DecidableEq

/-- Result of one supervise sweep: the process exit code (`main` maps a
raised `RuntimeError` to 1), the State record as persisted on disk, the
Decisions and Orders written, and the stdout lines. -/
structure SupResult where
  exitCode : Nat := 0
  state : StateRec := {}
  store : List Decision := []
  orders : List Order := []
  output : List String := []
deriving Repr, DecidableEq

/-- `int(parallel_policy.get("max_workers") or 1)` followed by the
`enabled` and `< 1` clamps (lines 1550-1554): absent or zero (falsy)
becomes 1, a disabled parallel policy forces 1, anything below 1 is
raised to 1. -/
def max_workers_clamped (cfg : Config) : Int :=
  let m0 : Int :=
    match cfg.parallel_max_workers with
    | none => 1
    | some v => if v = 0 then 1 else v
  let m1 := if cfg.parallel_enabled.getD true then m0 else 1
  if m1 < 1 then 1 else m1

/-- The worker-list validation loop (lines 1559-1571): valid ids
(stripped) in order, and the raw invalid entries. -/
def splitWorkerIds (workers : List String) : List String × List String :=
  workers.foldl
    (fun acc raw =>
      match validate_worker_id raw with
      | .ok v => (acc.1 ++ [v], acc.2)
      | .error _ => (acc.1, acc.2 ++ [raw]))
    ([], [])

def busyPhases : List String := ["estimating", "implementing", "reviewing"]

def busyStep (acc : List String) (p : String × IssueEntry) : List String :=
  let a := pyStrip p.2.assigned_to
  let ph := pyStrip p.2.phase
  if a ≠ "" && busyPhases.contains ph then acc ++ [a] else acc

/-- The busy-worker scan (lines 1626-1636): the `assigned_to` of every
entry whose phase is estimating/implementing/reviewing. -/
def busy_workers (s : StateRec) : List String :=
  s.issues.foldl busyStep []

def idle_workers (ids : List String) (s : StateRec) : List String :=
  ids.filter (fun w => ¬ (busy_workers s).contains w)

def superviseForbidden : List String := [".agent/**", "docs/prd/**", "docs/epics/**"]

/-- The pre-extraction loop (lines 1645-1693): collect up to
`max_workers` candidates with extractable change targets; failures and
empty extractions become `missing_change_targets` Decisions plus a
blocked tag and the candidate is skipped.  `extract` stands for the
external `extract-issue-files.py` call. -/
def assignableStep (extract : Int → Except String (List String)) (maxW : Int)
    (acc : List (Candidate × List String) × OpsSt) (item : Candidate) :
    List (Candidate × List String) × OpsSt :=
  if maxW ≤ Int.ofNat acc.1.length then acc
  else
    let n := item.number
    match extract n with
    | .error e =>
      let st' := write_decision acc.2
        { created_at := acc.2.nowIso, issue := some n,
          dtype := "missing_change_targets",
          request := { reason := "Issue本文から変更対象ファイル（推定）を抽出できない",
                       details := e } }
      (acc.1, { st' with state := { st'.state with
          blocked := st'.state.blocked ++
            [{ issue := some (toString n), reason := "missing_change_targets" }] } })
    | .ok files =>
      if files.isEmpty then
        let st' := write_decision acc.2
          { created_at := acc.2.nowIso, issue := some n,
            dtype := "missing_change_targets",
            request := { reason := "Issue本文から変更対象ファイル（推定）を抽出できない" } }
        (acc.1, { st' with state := { st'.state with
            blocked := st'.state.blocked ++
              [{ issue := some (toString n), reason := "missing_change_targets" }] } })
      else (acc.1 ++ [(item, files)], acc.2)

def supervise_assignable (extract : Int → Except String (List String))
    (maxW : Int) (candidates : List Candidate) (st : OpsSt) :
    List (Candidate × List String) × OpsSt :=
  candidates.foldl (assignableStep extract maxW) ([], st)

/-- One iteration of the assignment loop (lines 1739-1802): write the
`IssueEntry` (phase → estimating, contract, worktree path from the
slugified title) and the Order for one (candidate, idle worker) pair. -/
def assignStep (cfg : Config) (nowIso nowCompact : String)
    (acc : OpsSt × List Order) (pw : (Candidate × List String) × String) :
    OpsSt × List Order :=
  let item := pw.1.1
  let files := pw.1.2
  let worker := pw.2
  let n := item.number
  let key := toString n
  let entry0 := (lookupEntry acc.1.state.issues key).getD {}
  let labels := item.labels
  let default_mode := if cfg.impl_mode_default ≠ "" then cfg.impl_mode_default else "impl"
  let impl_mode :=
    if labels.any (fun l => cfg.force_tdd_labels.contains l) then "tdd"
    else default_mode
  let slug := pyTake 50 (slugify item.title)
  let worktree_path := ".worktrees/issue-" ++ toString n ++ "-" ++ slug
  let entry1 := { entry0 with
      title := item.title, labels := labels, assigned_to := worker,
      phase := "estimating", impl_mode := impl_mode,
      progress_percent := some (entry0.progress_percent.getD 0),
      allowed_files := files, forbidden_files := superviseForbidden,
      worktree_path := worktree_path }
  let order : Order :=
    { order_id := "ORD-" ++ nowCompact ++ "-" ++ worker ++ "-" ++ toString n,
      issued_at := nowIso, worker := worker, issue := n,
      intent := "Issue #" ++ toString n ++ " を完了（/review通過まで）",
      impl_mode := impl_mode, worktree_path := worktree_path,
      allowed_files := files, forbidden_files := superviseForbidden,
      required_steps :=
        ["/estimation (if not approved)",
         if impl_mode = "tdd" then "/tdd" else "/impl",
         "/review-cycle (loop until ready)", "/review", "/create-pr",
         "/cleanup"] }
  ({ acc.1 with state := { acc.1.state with
       issues := setEntry acc.1.state.issues key entry1 } },
   acc.2 ++ [order])

/-- The assignment loop plus final state write (lines 1732-1808). -/
def superviseFinish (cfg : Config) (idle : List String) (effective : Int)
    (assignable : List (Candidate × List String)) (st1 : OpsSt)
    (nowIso nowCompact : String) : SupResult :=
  if effective ≤ 0 then
    { exitCode := 0, state := { st1.state with updated_at := nowIso },
      store := st1.store, orders := [], output := ["orders=0"] }
  else
    let pairs := (assignable.take effective.toNat).zip idle
    let final := pairs.foldl (assignStep cfg nowIso nowCompact) (st1, [])
    { exitCode := 0, state := { final.1.state with updated_at := nowIso },
      store := final.1.store, orders := final.2,
      output := ["orders=" ++ toString final.2.length] }

/-- The preparation phase of `superviseAssign`: idle capacity, effective
concurrency and the pre-extracted assignable candidates with the working
sweep state. -/
def supervise_prep (cfg : Config) (state0 : StateRec) (candidates : List Candidate)
    (ids : List String) (extract : Int → Except String (List String))
    (nowIso nowCompact : String) :
    List String × Int × (List (Candidate × List String)) × OpsSt :=
  let mw := max_workers_clamped cfg
  let idle := idle_workers ids state0
  let effective : Int := min mw (Int.ofNat idle.length)
  let st0 : OpsSt :=
    { state := state0, store := [], archive := [], seq := 0,
      nowIso := nowIso, nowCompact := nowCompact }
  let built := supervise_assignable extract mw candidates st0
  (idle, effective, built.1, built.2)

/-- The issue numbers the overlap check runs on: the candidates that
would actually be assigned this sweep (lines 1695-1703). -/
def supervise_overlap_nums (cfg : Config) (state0 : StateRec)
    (candidates : List Candidate) (ids : List String)
    (extract : Int → Except String (List String)) (nowIso nowCompact : String) :
    List Int :=
  let p := supervise_prep cfg state0 candidates ids extract nowIso nowCompact
  let effective := p.2.1
  let assignable := p.2.2.1
  let overlapCands := if effective ≤ 0 then assignable else assignable.take effective.toNat
  overlapCands.map (fun q => q.1.number)

/-- The post-validation part of `cmd_supervise` (lines 1619-1808): busy /
idle computation, pre-extraction, overlap check, assignment.
`worktreeCheck` stands for the external `worktree.sh check` call and
returns its exit code and output. -/
def superviseAssign (cfg : Config) (state0 : StateRec) (candidates : List Candidate)
    (ids : List String) (extract : Int → Except String (List String))
    (worktreeCheck : List Int → Nat × String) (nowIso nowCompact : String) :
    SupResult :=
  let p := supervise_prep cfg state0 candidates ids extract nowIso nowCompact
  let idle := p.1
  let effective := p.2.1
  let assignable := p.2.2.1
  let st1 := p.2.2.2
  let nums := supervise_overlap_nums cfg state0 candidates ids extract nowIso nowCompact
  if 2 ≤ nums.length then
    let checked := worktreeCheck nums
    if checked.1 = 3 then
      let st2 := write_decision st1
        { created_at := nowIso, dtype := "overlap_detected",
          request := { issues := nums, details := pyStrip checked.2 } }
      let blocked' := st2.state.blocked ++
        nums.map (fun n => { issue := some (toString n), reason := "overlap_detected" })
      { exitCode := 0,
        state := { st2.state with blocked := blocked', updated_at := nowIso },
        store := st2.store, orders := [], output := ["decision=overlap_detected"] }
    else if checked.1 ≠ 0 then
      { exitCode := 1, state := state0, store := st1.store, orders := [],
        output := ["worktree.sh check failed"] }
    else superviseFinish cfg idle effective assignable st1 nowIso nowCompact
  else superviseFinish cfg idle effective assignable st1 nowIso nowCompact

/-- `cmd_supervise --once` from candidate selection onward (`candidates`
is the result of `select_targets`, an external tracker query): the
no-target early return, the `max_workers` clamps, the worker-list
validation with its two fatal-configuration Decision paths, then
`superviseAssign`. -/
def superviseSweep (cfg : Config) (state0 : StateRec) (candidates : List Candidate)
    (extract : Int → Except String (List String))
    (worktreeCheck : List Int → Nat × String) (nowIso nowCompact : String) :
    SupResult :=
  if candidates.isEmpty then
    { exitCode := 0, state := state0, store := [], orders := [],
      output := ["no_targets"] }
  else
    let split := splitWorkerIds cfg.workers
    let ids := split.1
    let invalid := split.2
    if ¬ invalid.isEmpty then
      let st0 : OpsSt := { state := state0, nowIso := nowIso, nowCompact := nowCompact }
      let st := write_decision st0
        { created_at := nowIso, dtype := "config_invalid_workers",
          request := { reason := "config.yaml の workers が不正（許可: A-Z a-z 0-9 _ -）",
                       workers := invalid } }
      { exitCode := 0,
        state := { st.state with
          blocked := st.state.blocked ++ [{ issue := none, reason := "config_invalid_workers" }],
          updated_at := nowIso },
        store := st.store, orders := [], output := ["decision=config_invalid_workers"] }
    else if ids.isEmpty then
      let st0 : OpsSt := { state := state0, nowIso := nowIso, nowCompact := nowCompact }
      let st := write_decision st0
        { created_at := nowIso, dtype := "config_missing_workers",
          request := { reason := "config.yaml に workers が未設定" } }
      { exitCode := 0,
        state := { st.state with
          blocked := st.state.blocked ++ [{ issue := none, reason := "config_missing_workers" }],
          updated_at := nowIso },
        store := st.store, orders := [], output := ["decision=config_missing_workers"] }
    else superviseAssign cfg state0 candidates ids extract worktreeCheck nowIso nowCompact

/-! ## Shared lemmas -/

theorem assignStep_orders_length (cfg : Config) (ni nc : String)
    (acc : OpsSt × List Order) (pw : (Candidate × List String) × String) :
    ((assignStep cfg ni nc acc pw).2).length = acc.2.length + 1 := by
  simp [assignStep]

theorem assign_foldl_orders_length (cfg : Config) (ni nc : String) :
    ∀ (pairs : List ((Candidate × List String) × String)) (acc : OpsSt × List Order),
      ((pairs.foldl (assignStep cfg ni nc) acc).2).length = acc.2.length + pairs.length := by
  intro pairs
  induction pairs with
  | nil => intro acc; simp
  | cons p ps ih =>
    intro acc
    simp only [List.foldl_cons, ih, assignStep_orders_length, List.length_cons]
    omega

theorem superviseFinish_orders_le (cfg : Config) (idle : List String) (eff : Int)
    (asg : List (Candidate × List String)) (st : OpsSt) (ni nc : String) :
    (superviseFinish cfg idle eff asg st ni nc).orders.length
      ≤ min eff.toNat idle.length := by
  unfold superviseFinish
  split
  · simp
  · have h := assign_foldl_orders_length cfg ni nc ((asg.take eff.toNat).zip idle) (st, [])
    simp only [List.length_nil, Nat.zero_add] at h
    simp only [h, List.length_zip, List.length_take]
    omega

theorem supervise_prep_idle (cfg : Config) (state0 : StateRec)
    (candidates : List Candidate) (ids : List String)
    (extract : Int → Except String (List String)) (ni nc : String) :
    (supervise_prep cfg state0 candidates ids extract ni nc).1
      = idle_workers ids state0 := by
  simp [supervise_prep]

theorem supervise_prep_effective (cfg : Config) (state0 : StateRec)
    (candidates : List Candidate) (ids : List String)
    (extract : Int → Except String (List String)) (ni nc : String) :
    (supervise_prep cfg state0 candidates ids extract ni nc).2.1
      = min (max_workers_clamped cfg) (Int.ofNat (idle_workers ids state0).length) := by
  simp [supervise_prep]

theorem superviseAssign_orders_le (cfg : Config) (state0 : StateRec)
    (candidates : List Candidate) (ids : List String)
    (extract : Int → Except String (List String))
    (check : List Int → Nat × String) (ni nc : String) :
    (superviseAssign cfg state0 candidates ids extract check ni nc).orders.length
      ≤ min (max_workers_clamped cfg).toNat (idle_workers ids state0).length := by
  unfold superviseAssign
  have hidle := supervise_prep_idle cfg state0 candidates ids extract ni nc
  have heff := supervise_prep_effective cfg state0 candidates ids extract ni nc
  have hbound : ∀ st1 : OpsSt,
      (superviseFinish cfg (supervise_prep cfg state0 candidates ids extract ni nc).1
        (supervise_prep cfg state0 candidates ids extract ni nc).2.1
        (supervise_prep cfg state0 candidates ids extract ni nc).2.2.1 st1 ni nc).orders.length
        ≤ min (max_workers_clamped cfg).toNat (idle_workers ids state0).length := by
    intro st1
    refine le_trans (superviseFinish_orders_le _ _ _ _ _ _ _) ?_
    rw [hidle, heff]
    have h1 := Int.toNat_le_toNat
      (min_le_left (max_workers_clamped cfg) (Int.ofNat (idle_workers ids state0).length))
    exact min_le_min h1 (le_refl _)
  dsimp only
  split
  · split
    · simp
    · split
      · simp
      · exact hbound _
  · exact hbound _

theorem superviseSweep_orders_le (cfg : Config) (state0 : StateRec)
    (candidates : List Candidate) (extract : Int → Except String (List String))
    (check : List Int → Nat × String) (ni nc : String) :
    (superviseSweep cfg state0 candidates extract check ni nc).orders.length
      ≤ min (max_workers_clamped cfg).toNat
          (idle_workers (splitWorkerIds cfg.workers).1 state0).length := by
  unfold superviseSweep
  dsimp only
  split
  · simp
  · split
    · simp
    · split
      · simp
      · exact superviseAssign_orders_le cfg state0 candidates
          (splitWorkerIds cfg.workers).1 extract check ni nc

/-! ## Test fixtures (concrete inputs for witnesses and counterexamples) -/

def cfgNoWorkers : Config := { workers := [] }

def candsOne : List Candidate := [{ number := 1, title := "A" }]

def extractOne : Int → Except String (List String) := fun n => .ok ["f" ++ toString n ++ ".py"]

def checkOk : List Int → Nat × String := fun _ => (0, "")

def c6fs : OpsFS := { lockExists := true, stateFile := some {} }

/-! ## Claims -/

/-- C1 (counterexample): with a non-empty candidate list and an empty
`workers` configuration, the supervise sweep writes a
`config_missing_workers` Decision and issues no Order, but the process
exit code is 0, not non-zero as the claim states. -/
theorem C1_counterexample :
    (superviseSweep cfgNoWorkers {} candsOne extractOne checkOk "T" "TS").exitCode = 0 ∧
    (superviseSweep cfgNoWorkers {} candsOne extractOne checkOk "T" "TS").store.map
      (fun d => d.dtype) = ["config_missing_workers"] ∧
    (superviseSweep cfgNoWorkers {} candsOne extractOne checkOk "T" "TS").orders = [] := by
  decide

/-- C1 (amended): when the supervise sweep finds that the configured
workers list is empty or contains invalid identifiers, it creates a
`config_missing_workers` / `config_invalid_workers` Decision and performs
no assignment (no Order is written, no issue entry is touched), and the
process exits with code 0 — the failure is reported through the Decision
and stdout, not through the exit status. -/
theorem C1_theorem (cfg : Config) (state0 : StateRec) (candidates : List Candidate)
    (extract : Int → Except String (List String)) (check : List Int → Nat × String)
    (ni nc : String) (hc : candidates ≠ [])
    (hbad : (splitWorkerIds cfg.workers).2 ≠ [] ∨ (splitWorkerIds cfg.workers).1 = []) :
    (superviseSweep cfg state0 candidates extract check ni nc).exitCode = 0 ∧
    (superviseSweep cfg state0 candidates extract check ni nc).orders = [] ∧
    (superviseSweep cfg state0 candidates extract check ni nc).state.issues = state0.issues ∧
    ((superviseSweep cfg state0 candidates extract check ni nc).store.map (fun d => d.dtype)
        = ["config_invalid_workers"] ∨
     (superviseSweep cfg state0 candidates extract check ni nc).store.map (fun d => d.dtype)
        = ["config_missing_workers"]) := by
  have hce : candidates.isEmpty = false := by
    simpa [List.isEmpty_iff] using hc
  rcases hbad with h | h
  · have hinv : (splitWorkerIds cfg.workers).2.isEmpty = false := by
      simpa [List.isEmpty_iff] using h
    simp [superviseSweep, hce, hinv, write_decision]
  · by_cases h2 : (splitWorkerIds cfg.workers).2.isEmpty
    · have hids : (splitWorkerIds cfg.workers).1.isEmpty = true := by
        simpa [List.isEmpty_iff] using h
      simp [superviseSweep, hce, h2, hids, write_decision]
    · simp [superviseSweep, hce, h2, write_decision]

/-- C1 (witness): the amended claim evaluated on the empty-workers
configuration. -/
theorem C1_witness :
    (candsOne ≠ [] ∧
      ((splitWorkerIds cfgNoWorkers.workers).2 ≠ [] ∨
        (splitWorkerIds cfgNoWorkers.workers).1 = [])) ∧
    ((superviseSweep cfgNoWorkers {} candsOne extractOne checkOk "T" "TS").exitCode = 0 ∧
     (superviseSweep cfgNoWorkers {} candsOne extractOne checkOk "T" "TS").orders = [] ∧
     (superviseSweep cfgNoWorkers {} candsOne extractOne checkOk "T" "TS").state.issues
        = StateRec.issues {} ∧
     ((superviseSweep cfgNoWorkers {} candsOne extractOne checkOk "T" "TS").store.map
        (fun d => d.dtype) = ["config_invalid_workers"] ∨
      (superviseSweep cfgNoWorkers {} candsOne extractOne checkOk "T" "TS").store.map
        (fun d => d.dtype) = ["config_missing_workers"])) :=
  ⟨⟨by decide, by decide⟩,
   C1_theorem cfgNoWorkers {} candsOne extractOne checkOk "T" "TS"
     (by decide) (by decide)⟩

/-- C6: lock acquisition succeeds exactly when no lock file exists;
an existing lock file makes `acquire(path)` fail (it is never
overwritten); and a collect invocation finding the lock held exits with
code 1 leaving the store — in particular the State record — exactly as
it was. -/
theorem C6_theorem :
    (∀ (fs : OpsFS) (p : String), (acquire_lock fs p).isOk = true ↔ fs.lockExists = false) ∧
    (∀ (fs : OpsFS) (p : String), fs.lockExists = true →
        acquire_lock fs p = .error "lock already exists (single-writer)") ∧
    (∀ (ctx : Int → IssueContext) (fs : OpsFS) (ds : StateRec) (ni nc lp : String)
        (s : StateRec), fs.stateFile = some s → fs.lockExists = true →
        cmd_collect ctx fs ds ni nc lp = (1, fs)) := by
  refine ⟨?_, ?_, ?_⟩
  · intro fs p
    by_cases h : fs.lockExists <;> simp [acquire_lock, h, Except.isOk, Except.toBool]
  · intro fs p h
    simp [acquire_lock, h]
  · intro ctx fs ds ni nc lp s hs hl
    have hfix : ensure_ops_layout_state fs ds = fs := by
      unfold ensure_ops_layout_state
      rw [hs]
    unfold cmd_collect
    rw [hfix]
    simp [acquire_lock, hl]

/-- C6 (witness): a held lock at a concrete store. -/
theorem C6_witness :
    (c6fs.stateFile = some {} ∧ c6fs.lockExists = true) ∧
    cmd_collect (fun _ => {}) c6fs {} "T" "TS" "pid=1" = (1, c6fs) :=
  ⟨⟨rfl, rfl⟩,
   C6_theorem.2.2 (fun _ => {}) c6fs {} "T" "TS" "pid=1" {} rfl rfl⟩

/-- C10: if `policy.parallel.enabled` is false, or the configured
`max_workers` is below 1, the supervise sweep caps the effective
`max_workers` at 1, so at most one Order is issued regardless of the
configured value. -/
theorem C10_theorem (cfg : Config) (state0 : StateRec) (candidates : List Candidate)
    (extract : Int → Except String (List String)) (check : List Int → Nat × String)
    (ni nc : String)
    (h : cfg.parallel_enabled.getD true = false ∨
         (∃ v : Int, cfg.parallel_max_workers = some v ∧ v < 1)) :
    max_workers_clamped cfg = 1 ∧
    (superviseSweep cfg state0 candidates extract check ni nc).orders.length ≤ 1 := by
  have h1 : max_workers_clamped cfg = 1 := by
    unfold max_workers_clamped
    rcases h with h | ⟨v, hv, hlt⟩
    · simp [h]
    · rw [hv]
      by_cases hz : v = 0
      · simp [hz]
      · simp only [hz, if_false]
        by_cases he : cfg.parallel_enabled.getD true
        · rw [he]
          simp only [if_true]
          rw [if_pos hlt]
        · simp only [Bool.not_eq_true] at he
          simp [he]
  refine ⟨h1, ?_⟩
  have h2 := superviseSweep_orders_le cfg state0 candidates extract check ni nc
  rw [h1] at h2
  exact le_trans h2 (by omega)

def cfgZeroMax : Config :=
  { parallel_max_workers := some 0, workers := ["w1", "w2", "w3"] }

def cfgPar2 : Config :=
  { parallel_enabled := some true, parallel_max_workers := some 2,
    workers := ["w1", "w2", "w3"] }

def cands5 : List Candidate :=
  [{ number := 1, title := "A" }, { number := 2, title := "B" },
   { number := 3, title := "C" }, { number := 4, title := "D" },
   { number := 5, title := "E" }]

def checkOverlap : List Int → Nat × String := fun _ => (3, "overlap: shared targets")

/-- C10 (witness): `max_workers = 0` with three workers still yields the
cap 1 and at most one order. -/
theorem C10_witness :
    (cfgZeroMax.parallel_enabled.getD true = false ∨
      (∃ v : Int, cfgZeroMax.parallel_max_workers = some v ∧ v < 1)) ∧
    (max_workers_clamped cfgZeroMax = 1 ∧
     (superviseSweep cfgZeroMax {} candsOne extractOne checkOk "T" "TS").orders.length ≤ 1) :=
  ⟨Or.inr ⟨0, rfl, by decide⟩,
   C10_theorem cfgZeroMax {} candsOne extractOne checkOk "T" "TS"
     (Or.inr ⟨0, rfl, by decide⟩)⟩

theorem busy_workers_mem (w : String) (s : StateRec) :
    w ∈ busy_workers s
      ↔ ∃ p ∈ s.issues, pyStrip p.2.assigned_to = w ∧
          pyStrip p.2.assigned_to ≠ "" ∧ pyStrip p.2.phase ∈ busyPhases := by
  unfold busy_workers
  suffices h : ∀ (l : List (String × IssueEntry)) (acc : List String),
      w ∈ l.foldl busyStep acc
        ↔ w ∈ acc ∨ ∃ p ∈ l, pyStrip p.2.assigned_to = w ∧
            pyStrip p.2.assigned_to ≠ "" ∧ pyStrip p.2.phase ∈ busyPhases by
    rw [h s.issues []]
    simp
  intro l
  induction l with
  | nil => intro acc; simp
  | cons p ps ih =>
    intro acc
    rw [List.foldl_cons, ih]
    unfold busyStep
    dsimp only
    by_cases hc : (pyStrip p.2.assigned_to ≠ ""
        && busyPhases.contains (pyStrip p.2.phase)) = true
    · rw [if_pos hc]
      have hc' : pyStrip p.2.assigned_to ≠ "" ∧ pyStrip p.2.phase ∈ busyPhases := by
        simpa [List.elem_iff] using hc
      constructor
      · rintro (h | ⟨q, hq, hcs⟩)
        · rcases List.mem_append.mp h with h2 | h2
          · exact Or.inl h2
          · have hw2 : w = pyStrip p.2.assigned_to := List.mem_singleton.mp h2
            exact Or.inr ⟨p, List.mem_cons_self p ps, hw2.symm, hc'.1, hc'.2⟩
        · exact Or.inr ⟨q, List.mem_cons_of_mem p hq, hcs⟩
      · rintro (h | ⟨q, hq, hcs⟩)
        · exact Or.inl (List.mem_append.mpr (Or.inl h))
        · rcases List.mem_cons.mp hq with rfl | hq2
          · exact Or.inl (List.mem_append.mpr
              (Or.inr (List.mem_singleton.mpr hcs.1.symm)))
          · exact Or.inr ⟨q, hq2, hcs⟩
    · rw [if_neg hc]
      have hc' : pyStrip p.2.assigned_to = "" ∨ pyStrip p.2.phase ∉ busyPhases := by
        by_cases h1 : pyStrip p.2.assigned_to = ""
        · exact Or.inl h1
        · right
          intro hmem
          apply hc
          simp [h1, List.elem_iff, hmem]
      constructor
      · rintro (h | ⟨q, hq, hcs⟩)
        · exact Or.inl h
        · exact Or.inr ⟨q, List.mem_cons_of_mem p hq, hcs⟩
      · rintro (h | ⟨q, hq, hcs⟩)
        · exact Or.inl h
        · rcases List.mem_cons.mp hq with rfl | hq2
          · rcases hc' with h1 | h1
            · exact absurd h1 hcs.2.1
            · exact absurd hcs.2.2 h1
          · exact Or.inr ⟨q, hq2, hcs⟩

theorem busy_workers_spec (w : String) (s : StateRec) (hw : w ≠ "") :
    w ∈ busy_workers s
      ↔ ∃ p ∈ s.issues, pyStrip p.2.assigned_to = w ∧
          pyStrip p.2.phase ∈ busyPhases := by
  rw [busy_workers_mem]
  constructor
  · rintro ⟨q, hq, h1, _, h3⟩
    exact ⟨q, hq, h1, h3⟩
  · rintro ⟨q, hq, h1, h3⟩
    exact ⟨q, hq, h1, h1 ▸ hw, h3⟩

/-- C4: a worker is busy exactly when it is the `assigned_to` of an
`IssueEntry` in phase estimating / implementing / reviewing; a supervise
sweep issues at most `min(configured max_workers, #idle workers)` Orders;
and the concrete admission scenario — `max_workers = 2`, three idle
workers, five eligible candidates with extractable, non-overlapping
targets — issues exactly two Orders assigning the first two candidates to
the first two idle workers in order, with exactly two entries moving to
`estimating`. -/
theorem C4_theorem :
    (∀ (w : String) (s : StateRec), w ≠ "" →
      (w ∈ busy_workers s
        ↔ ∃ p ∈ s.issues, pyStrip p.2.assigned_to = w ∧
            pyStrip p.2.phase ∈ busyPhases)) ∧
    (∀ (cfg : Config) (state0 : StateRec) (candidates : List Candidate)
        (extract : Int → Except String (List String))
        (check : List Int → Nat × String) (ni nc : String) (m : Int),
      cfg.parallel_enabled.getD true = true →
      cfg.parallel_max_workers = some m → 1 ≤ m →
      (superviseSweep cfg state0 candidates extract check ni nc).orders.length
        ≤ min m.toNat (idle_workers (splitWorkerIds cfg.workers).1 state0).length) ∧
    ((superviseSweep cfgPar2 {} cands5 extractOne checkOk "T" "TS").orders.map
        (fun o => (o.worker, o.issue)) = [("w1", 1), ("w2", 2)] ∧
     ((superviseSweep cfgPar2 {} cands5 extractOne checkOk "T" "TS").state.issues.filter
        (fun p => p.2.phase == "estimating")).length = 2 ∧
     (superviseSweep cfgPar2 {} cands5 extractOne checkOk "T" "TS").exitCode = 0) := by
  refine ⟨fun w s hw => busy_workers_spec w s hw, ?_, by decide⟩
  intro cfg state0 candidates extract check ni nc m he hm h1
  have hclamp : max_workers_clamped cfg = m := by
    unfold max_workers_clamped
    rw [hm, he]
    have hz : ¬ m = 0 := by omega
    simp only [hz, if_false, if_true]
    rw [if_neg (by omega)]
  have h := superviseSweep_orders_le cfg state0 candidates extract check ni nc
  rw [hclamp] at h
  exact h

/-- C4 (witness): the general bounds evaluated on the concrete admission
scenario. -/
theorem C4_witness :
    ("w1" ≠ "" ∧ cfgPar2.parallel_enabled.getD true = true ∧
      cfgPar2.parallel_max_workers = some 2 ∧ (1 : Int) ≤ 2) ∧
    (("w1" ∈ busy_workers {}
        ↔ ∃ p ∈ StateRec.issues {}, pyStrip p.2.assigned_to = "w1" ∧
            pyStrip p.2.phase ∈ busyPhases) ∧
     (superviseSweep cfgPar2 {} cands5 extractOne checkOk "T" "TS").orders.length
        ≤ min (Int.toNat 2) (idle_workers (splitWorkerIds cfgPar2.workers).1 {}).length) :=
  ⟨⟨by decide, rfl, rfl, by decide⟩,
   ⟨C4_theorem.1 "w1" {} (by decide),
    C4_theorem.2.1 cfgPar2 {} cands5 extractOne checkOk "T" "TS" 2 rfl rfl (by decide)⟩⟩

theorem assignable_foldl_facts (extract : Int → Except String (List String))
    (maxW : Int) :
    ∀ (cands : List Candidate) (acc : List (Candidate × List String) × OpsSt),
      ((cands.foldl (assignableStep extract maxW) acc).2.state.issues
          = acc.2.state.issues) ∧
      (∀ d ∈ (cands.foldl (assignableStep extract maxW) acc).2.store,
          d ∈ acc.2.store ∨ d.dtype = "missing_change_targets") := by
  intro cands
  induction cands with
  | nil => intro acc; exact ⟨rfl, fun d hd => Or.inl hd⟩
  | cons c cs ih =>
    intro acc
    rw [List.foldl_cons]
    have hstep : ((assignableStep extract maxW acc c).2.state.issues = acc.2.state.issues) ∧
        (∀ d ∈ (assignableStep extract maxW acc c).2.store,
          d ∈ acc.2.store ∨ d.dtype = "missing_change_targets") := by
      unfold assignableStep
      dsimp only
      split
      · exact ⟨rfl, fun d hd => Or.inl hd⟩
      · split
        · refine ⟨by simp [write_decision], ?_⟩
          intro d hd
          simp only [write_decision] at hd
          rcases List.mem_append.mp hd with h | h
          · exact Or.inl h
          · right
            simp only [List.mem_singleton] at h
            rw [h]
        · split
          · refine ⟨by simp [write_decision], ?_⟩
            intro d hd
            simp only [write_decision] at hd
            rcases List.mem_append.mp hd with h | h
            · exact Or.inl h
            · right
              simp only [List.mem_singleton] at h
              rw [h]
          · exact ⟨rfl, fun d hd => Or.inl hd⟩
    obtain ⟨ih1, ih2⟩ := ih (assignableStep extract maxW acc c)
    refine ⟨ih1.trans hstep.1, ?_⟩
    intro d hd
    rcases ih2 d hd with h | h
    · exact hstep.2 d h
    · exact Or.inr h

/-- C5: when the overlap checker reports overlap (exit code 3) on the
candidates that would actually be assigned, the supervise sweep issues
zero Orders, leaves every issue entry untouched, exits 0, and writes
exactly one `overlap_detected` Decision whose request lists exactly the
affected issue numbers. -/
theorem C5_theorem (cfg : Config) (state0 : StateRec) (candidates : List Candidate)
    (extract : Int → Except String (List String)) (check : List Int → Nat × String)
    (ni nc out : String)
    (hc : candidates ≠ [])
    (hval : (splitWorkerIds cfg.workers).2 = [])
    (hids : (splitWorkerIds cfg.workers).1 ≠ [])
    (hn : 2 ≤ (supervise_overlap_nums cfg state0 candidates
        (splitWorkerIds cfg.workers).1 extract ni nc).length)
    (hchk : check (supervise_overlap_nums cfg state0 candidates
        (splitWorkerIds cfg.workers).1 extract ni nc) = (3, out)) :
    (superviseSweep cfg state0 candidates extract check ni nc).exitCode = 0 ∧
    (superviseSweep cfg state0 candidates extract check ni nc).orders = [] ∧
    (superviseSweep cfg state0 candidates extract check ni nc).state.issues
      = state0.issues ∧
    ((superviseSweep cfg state0 candidates extract check ni nc).store.filter
        (fun d => d.dtype == "overlap_detected")).map (fun d => d.request.issues)
      = [supervise_overlap_nums cfg state0 candidates
          (splitWorkerIds cfg.workers).1 extract ni nc] := by
  have hce : candidates.isEmpty = false := by
    simpa [List.isEmpty_iff] using hc
  have hinv : (splitWorkerIds cfg.workers).2.isEmpty = true := by
    simp [hval]
  have hidsne : (splitWorkerIds cfg.workers).1.isEmpty = false := by
    simpa [List.isEmpty_iff] using hids
  have hsweep : superviseSweep cfg state0 candidates extract check ni nc
      = superviseAssign cfg state0 candidates (splitWorkerIds cfg.workers).1
          extract check ni nc := by
    unfold superviseSweep
    dsimp only
    rw [hce]
    simp only [Bool.false_eq_true, if_false, hinv, hidsne]
    simp
  rw [hsweep]
  unfold superviseAssign
  dsimp only
  rw [hchk]
  simp only [if_pos hn]
  dsimp only
  have hfacts := assignable_foldl_facts extract (max_workers_clamped cfg) candidates
    ([], { state := state0, store := [], archive := [], seq := 0,
           nowIso := ni, nowCompact := nc })
  have hissues : (supervise_prep cfg state0 candidates (splitWorkerIds cfg.workers).1
      extract ni nc).2.2.2.state.issues = state0.issues := by
    unfold supervise_prep supervise_assignable
    dsimp only
    exact hfacts.1
  have hstore : ∀ d ∈ (supervise_prep cfg state0 candidates (splitWorkerIds cfg.workers).1
      extract ni nc).2.2.2.store, d.dtype = "missing_change_targets" := by
    unfold supervise_prep supervise_assignable
    dsimp only
    intro d hd
    rcases hfacts.2 d hd with h | h
    · simp at h
    · exact h
  refine ⟨rfl, rfl, ?_, ?_⟩
  · simp only [write_decision]
    exact hissues
  · rw [if_pos trivial]
    simp only [write_decision]
    rw [List.filter_append]
    have h1 : ((supervise_prep cfg state0 candidates (splitWorkerIds cfg.workers).1
        extract ni nc).2.2.2.store.filter (fun d => d.dtype == "overlap_detected")) = [] := by
      rw [List.filter_eq_nil_iff]
      intro d hd
      simp [hstore d hd]
    rw [h1]
    simp

/-- C5 (witness): two overlapping candidates at a concrete configuration
— zero orders, one `overlap_detected` Decision naming both issues. -/
theorem C5_witness :
    (cands5 ≠ [] ∧ (splitWorkerIds cfgPar2.workers).2 = [] ∧
      (splitWorkerIds cfgPar2.workers).1 ≠ [] ∧
      2 ≤ (supervise_overlap_nums cfgPar2 {} cands5
        (splitWorkerIds cfgPar2.workers).1 extractOne "T" "TS").length ∧
      checkOverlap (supervise_overlap_nums cfgPar2 {} cands5
        (splitWorkerIds cfgPar2.workers).1 extractOne "T" "TS")
        = (3, "overlap: shared targets")) ∧
    ((superviseSweep cfgPar2 {} cands5 extractOne checkOverlap "T" "TS").exitCode = 0 ∧
     (superviseSweep cfgPar2 {} cands5 extractOne checkOverlap "T" "TS").orders = [] ∧
     (superviseSweep cfgPar2 {} cands5 extractOne checkOverlap "T" "TS").state.issues
        = StateRec.issues {} ∧
     ((superviseSweep cfgPar2 {} cands5 extractOne checkOverlap "T" "TS").store.filter
        (fun d => d.dtype == "overlap_detected")).map (fun d => d.request.issues)
        = [supervise_overlap_nums cfgPar2 {} cands5
            (splitWorkerIds cfgPar2.workers).1 extractOne "T" "TS"]) :=
  ⟨⟨by decide, by decide, by decide, by decide, by decide⟩,
   C5_theorem cfgPar2 {} cands5 extractOne checkOverlap "T" "TS"
     "overlap: shared targets" (by decide) (by decide) (by decide) (by decide)
     (by decide)⟩

theorem buildItem_worker_invariant (dw x : String) (c : Checkin) :
    buildItem dw { c with worker := x } = buildItem dw c := by
  unfold buildItem
  cases c
  rfl

/-- C9: the collector takes the worker identity from the queue directory
name, validated against the `A-Z a-z 0-9 _ -` allow-list, never from the
`worker` field inside the file: two checkin files in the same directory
that differ only in that field produce identical collector effects, and
the item the passes process carries the validated directory name as its
worker. -/
theorem C9_theorem :
    (∀ (ctx : Int → IssueContext) (dw x : String) (c : Checkin)
        (rest : List (String × Checkin)) (st : OpsSt),
      collect_sweep ctx ((dw, { c with worker := x }) :: rest) st
        = collect_sweep ctx ((dw, c) :: rest) st) ∧
    (∀ (dw w : String) (c : Checkin) (i : Int),
      validate_worker_id dw = .ok w → c.issue = some i →
      buildItem dw c = .ok (i, { c with worker := w })) ∧
    (∀ (dw w : String), validate_worker_id dw = .ok w →
      w ≠ "" ∧ w.data.all isWorkerChar = true) := by
  refine ⟨?_, ?_, ?_⟩
  · intro ctx dw x c rest st
    unfold collect_sweep
    simp only [List.mapM, List.mapM.loop, buildItem_worker_invariant]
  · intro dw w c i hv hi
    unfold buildItem
    rw [hi]
    simp only [as_int, hv]
    rfl
  · intro dw w h
    unfold validate_worker_id at h
    by_cases h1 : pyStrip dw = ""
    · rw [if_pos h1] at h
      simp at h
    · rw [if_neg h1] at h
      by_cases h2 : (pyStrip dw).data.all isWorkerChar = true
      · rw [if_pos h2] at h
        have hw : pyStrip dw = w := by
          simpa using h
        subst hw
        exact ⟨h1, h2⟩
      · rw [if_neg h2] at h
        simp at h

/-- C9 (witness): a concrete directory name and a checkin whose in-file
worker field is tampered with. -/
theorem C9_witness :
    (validate_worker_id "ashigaru1" = .ok "ashigaru1" ∧
      Checkin.issue { issue := some 3 } = some 3) ∧
    (collect_sweep (fun _ => {})
        [("ashigaru1", { issue := some 3, worker := "someone-else" })] {}
      = collect_sweep (fun _ => {}) [("ashigaru1", ({ issue := some 3 } : Checkin))] {} ∧
     buildItem "ashigaru1" { issue := some 3 }
        = .ok (3, { issue := some 3, worker := "ashigaru1" }) ∧
     ("ashigaru1" ≠ "" ∧ "ashigaru1".data.all isWorkerChar = true)) :=
  ⟨⟨rfl, rfl⟩,
   ⟨C9_theorem.1 (fun _ => {}) "ashigaru1" "someone-else" { issue := some 3 } [] {},
    C9_theorem.2.1 "ashigaru1" "ashigaru1" { issue := some 3 } 3 rfl rfl,
    C9_theorem.2.2 "ashigaru1" "ashigaru1" rfl⟩⟩

/-- A checkin that carries exactly one skill candidate and nothing else
(the shape `shogun-ops.py checkin --skill-candidate --skill-summary`
produces when no other needs are set). -/
def skillCheckinFx (worker cid ts nm sm : String) : Checkin :=
  { checkin_id := cid, timestamp := ts, worker := worker, skills := [(nm, sm)] }

/-- The `skill_candidate` Decision `emit_decisions_from_checkin` creates
on a fresh queue for such a checkin. -/
def skillDecisionFx (issue : Int) (w cid ts nm sm ni nc : String) : Decision :=
  { decision_id := "DEC-" ++ nc ++ "-" ++ issuePart (some issue) ++ "-" ++ pad3 1,
    created_at := ni, issue := some issue, dtype := "skill_candidate",
    dedupe_key := skill_candidate_dedupe_key issue (pyStrip nm) (pyStrip sm),
    request := { worker := w, workers := [w],
                 submitters := [{ worker := w, checkin_id := pyStrip cid, timestamp := ts }],
                 reason := pyStrip nm ++ ": " ++ pyStrip sm,
                 name := pyStrip nm, summary := pyStrip sm,
                 checkin_id := pyStrip cid } }

theorem emit_skill_fresh (issue : Int) (w cid ts nm sm ni nc : String)
    (hn : ¬ pyStrip nm = "") (hs : ¬ pyStrip sm = "") :
    emit_decisions_from_checkin issue w (skillCheckinFx w cid ts nm sm) none
        { nowIso := ni, nowCompact := nc }
      = .ok { nowIso := ni, nowCompact := nc, seq := 1,
              store := [skillDecisionFx issue w cid ts nm sm ni nc] } := by
  unfold emit_decisions_from_checkin skillCheckinFx
  simp [stripList, sortedDedup, dedupGo, pySortedStrings, dedupeKeys, hn, hs,
    write_decision, skillDecisionFx, joinComma]
  rfl

set_option maxRecDepth 8192 in
/-- C2 (counterexample): two skill submissions that differ only in the
submitting worker receive the *same* dedupe key — the collector computes
`skill_candidate` keys without a worker component — and processing both
yields one Decision, not two with distinct keys as the claim requires. -/
theorem C2_counterexample :
    ((emit_decisions_from_checkin 7 "ashigaru1"
        (skillCheckinFx "ashigaru1" "c1" "T0" "retry-loop" "use retries") none
        {}).toOption.map (fun st => st.store.map (fun d => d.dedupe_key)))
      = ((emit_decisions_from_checkin 7 "ashigaru2"
        (skillCheckinFx "ashigaru2" "c2" "T0" "retry-loop" "use retries") none
        {}).toOption.map (fun st => st.store.map (fun d => d.dedupe_key))) ∧
    ((Except.bind
        (emit_decisions_from_checkin 7 "ashigaru1"
          (skillCheckinFx "ashigaru1" "c1" "T0" "retry-loop" "use retries") none {})
        (emit_decisions_from_checkin 7 "ashigaru2"
          (skillCheckinFx "ashigaru2" "c2" "T0" "retry-loop" "use retries") none)).toOption.map
      (fun st => (st.store.filter (fun d => d.dtype == "skill_candidate")).length))
      = some 1 := by
  constructor
  · decide
  · decide

/-- C2 (amended): the dedupe key of an `approval_required` /
`contract_expansion` / `blocker` Decision is a content hash over the four
components type, issue, worker and payload (so the same payload submitted
by different workers yields different keys), while the `skill_candidate`
key is hashed over (issue, name, summary) only — every submitting worker
receives the same key, which is what lets independent submissions fold
into one Decision. -/
theorem C2_theorem (issue : Int) (nm sm w1 w2 cid1 cid2 ts ni nc : String)
    (hn : ¬ pyStrip nm = "") (hs : ¬ pyStrip sm = "") :
    ((emit_decisions_from_checkin issue w1 (skillCheckinFx w1 cid1 ts nm sm) none
        { nowIso := ni, nowCompact := nc }).toOption.map
      (fun st => st.store.map (fun d => d.dedupe_key)))
      = some [skill_candidate_dedupe_key issue (pyStrip nm) (pyStrip sm)] ∧
    ((emit_decisions_from_checkin issue w2 (skillCheckinFx w2 cid2 ts nm sm) none
        { nowIso := ni, nowCompact := nc }).toOption.map
      (fun st => st.store.map (fun d => d.dedupe_key)))
      = some [skill_candidate_dedupe_key issue (pyStrip nm) (pyStrip sm)] ∧
    decision_dedupe_key "blocker" 7 "ashigaru1" "blocker=need-info"
      ≠ decision_dedupe_key "blocker" 7 "ashigaru2" "blocker=need-info" := by
  refine ⟨?_, ?_, by decide⟩
  · rw [emit_skill_fresh issue w1 cid1 ts nm sm ni nc hn hs]
    rfl
  · rw [emit_skill_fresh issue w2 cid2 ts nm sm ni nc hn hs]
    rfl

/-- C2 (witness): the amended claim at a concrete skill submission. -/
theorem C2_witness :
    (¬ pyStrip "retry-loop" = "" ∧ ¬ pyStrip "use retries" = "") ∧
    (((emit_decisions_from_checkin 7 "ashigaru1"
        (skillCheckinFx "ashigaru1" "c1" "T0" "retry-loop" "use retries") none
        { nowIso := "T1", nowCompact := "TS" }).toOption.map
      (fun st => st.store.map (fun d => d.dedupe_key)))
      = some [skill_candidate_dedupe_key 7 (pyStrip "retry-loop") (pyStrip "use retries")] ∧
     ((emit_decisions_from_checkin 7 "ashigaru2"
        (skillCheckinFx "ashigaru2" "c2" "T0" "retry-loop" "use retries") none
        { nowIso := "T1", nowCompact := "TS" }).toOption.map
      (fun st => st.store.map (fun d => d.dedupe_key)))
      = some [skill_candidate_dedupe_key 7 (pyStrip "retry-loop") (pyStrip "use retries")] ∧
     decision_dedupe_key "blocker" 7 "ashigaru1" "blocker=need-info"
      ≠ decision_dedupe_key "blocker" 7 "ashigaru2" "blocker=need-info") :=
  ⟨⟨by decide, by decide⟩,
   C2_theorem 7 "retry-loop" "use retries" "ashigaru1" "ashigaru2" "c1" "c2"
     "T0" "T1" "TS" (by decide) (by decide)⟩

theorem sha_key_ne_empty (s : String) : ¬ ("sha256:" ++ sha256hex s = "") := by
  intro h
  have hd := congrArg String.data h
  rw [String.data_append] at hd
  simp at hd

theorem skill_key_ne_empty (issue : Int) (nm sm : String) :
    ¬ (skill_candidate_dedupe_key issue nm sm = "") :=
  sha_key_ne_empty _

theorem decision_key_ne_empty (kind : String) (issue : Int) (worker payload : String) :
    ¬ (decision_dedupe_key kind issue worker payload = "") :=
  sha_key_ne_empty _

/-- The merged Decision after a second worker submits the same
(issue, name, summary): the submitter and workers lists gain the second
worker. -/
def skillDecisionMergedFx (issue : Int) (w1 cid1 ts1 w2 cid2 ts2 nm sm ni nc : String) :
    Decision :=
  { skillDecisionFx issue w1 cid1 ts1 nm sm ni nc with
    request := { (skillDecisionFx issue w1 cid1 ts1 nm sm ni nc).request with
      workers := [w1, w2],
      submitters := [{ worker := w1, checkin_id := pyStrip cid1, timestamp := ts1 },
                     { worker := w2, checkin_id := pyStrip cid2, timestamp := ts2 }] } }

theorem emit_skill_merge (issue : Int) (w1 w2 cid1 cid2 ts1 ts2 nm sm ni nc : String)
    (hn : ¬ pyStrip nm = "") (hs : ¬ pyStrip sm = "")
    (hw1 : pyStrip w1 = w1) (hw1n : ¬ w1 = "")
    (hcid1 : pyStrip cid1 = cid1)
    (hne : ¬ w2 = w1)
    (hpair : ¬ w2 ++ "|" ++ pyStrip cid2 = w1 ++ "|" ++ cid1) :
    emit_decisions_from_checkin issue w2 (skillCheckinFx w2 cid2 ts2 nm sm) none
        { nowIso := ni, nowCompact := nc, seq := 1,
          store := [skillDecisionFx issue w1 cid1 ts1 nm sm ni nc] }
      = .ok { nowIso := ni, nowCompact := nc, seq := 1,
              store := [skillDecisionMergedFx issue w1 cid1 ts1 w2 cid2 ts2 nm sm ni nc] } := by
  unfold emit_decisions_from_checkin skillCheckinFx
  simp [stripList, sortedDedup, dedupGo, pySortedStrings, dedupeKeys, hn, hs,
    skillDecisionFx, skillDecisionMergedFx, findByKey, replaceFirst,
    hw1, hw1n, hcid1, hne, hpair, skill_key_ne_empty]
  rw [if_neg (fun h => hpair (Eq.symm h))]
  rfl

theorem emit_skill_reprocess (issue : Int) (w1 w2 cid1 cid2 ts1 ts2 nm sm ni nc : String)
    (hn : ¬ pyStrip nm = "") (hs : ¬ pyStrip sm = "")
    (hw1 : pyStrip w1 = w1) (hw1n : ¬ w1 = "")
    (hw2 : pyStrip w2 = w2) (hw2n : ¬ w2 = "")
    (hcid1 : pyStrip cid1 = cid1) (hcid2 : pyStrip cid2 = cid2) :
    emit_decisions_from_checkin issue w2 (skillCheckinFx w2 cid2 ts2 nm sm) none
        { nowIso := ni, nowCompact := nc, seq := 1,
          store := [skillDecisionMergedFx issue w1 cid1 ts1 w2 cid2 ts2 nm sm ni nc] }
      = .ok { nowIso := ni, nowCompact := nc, seq := 1,
              store := [skillDecisionMergedFx issue w1 cid1 ts1 w2 cid2 ts2 nm sm ni nc] } := by
  unfold emit_decisions_from_checkin skillCheckinFx
  simp [stripList, sortedDedup, dedupGo, pySortedStrings, dedupeKeys, hn, hs,
    skillDecisionFx, skillDecisionMergedFx, findByKey,
    hw1, hw1n, hw2, hw2n, hcid1, hcid2, skill_key_ne_empty]
  rfl

/-- C7: two checkins from different workers carrying a skill candidate
with the same (issue, name, summary) produce exactly one
`skill_candidate` Decision whose submitter list has one entry per worker;
re-processing a submission whose worker+checkin_id pair is already
recorded changes nothing. -/
theorem C7_theorem (issue : Int) (w1 w2 cid1 cid2 ts1 ts2 nm sm ni nc : String)
    (hn : ¬ pyStrip nm = "") (hs : ¬ pyStrip sm = "")
    (hw1 : pyStrip w1 = w1) (hw1n : ¬ w1 = "")
    (hw2 : pyStrip w2 = w2) (hw2n : ¬ w2 = "")
    (hcid1 : pyStrip cid1 = cid1) (hcid2 : pyStrip cid2 = cid2)
    (hne : ¬ w2 = w1)
    (hpair : ¬ w2 ++ "|" ++ cid2 = w1 ++ "|" ++ cid1)
    (st1 st2 st3 : OpsSt)
    (h1 : emit_decisions_from_checkin issue w1 (skillCheckinFx w1 cid1 ts1 nm sm) none
        { nowIso := ni, nowCompact := nc } = .ok st1)
    (h2 : emit_decisions_from_checkin issue w2 (skillCheckinFx w2 cid2 ts2 nm sm) none
        st1 = .ok st2)
    (h3 : emit_decisions_from_checkin issue w2 (skillCheckinFx w2 cid2 ts2 nm sm) none
        st2 = .ok st3) :
    (st2.store.filter (fun d => d.dtype == "skill_candidate")).length = 1 ∧
    st2.store.map (fun d => d.request.submitters.map (fun s => (s.worker, s.checkin_id)))
      = [[(w1, cid1), (w2, cid2)]] ∧
    st2.store.map (fun d => d.request.workers) = [[w1, w2]] ∧
    st3 = st2 := by
  have e1 := emit_skill_fresh issue w1 cid1 ts1 nm sm ni nc hn hs
  rw [e1] at h1
  have hst1 : st1 = { nowIso := ni, nowCompact := nc, seq := 1,
                      store := [skillDecisionFx issue w1 cid1 ts1 nm sm ni nc] } :=
    (Except.ok.inj h1).symm
  subst hst1
  have hpair' : ¬ w2 ++ "|" ++ pyStrip cid2 = w1 ++ "|" ++ cid1 := by
    rw [hcid2]
    exact hpair
  have e2 := emit_skill_merge issue w1 w2 cid1 cid2 ts1 ts2 nm sm ni nc
    hn hs hw1 hw1n hcid1 hne hpair'
  rw [e2] at h2
  have hst2 : st2 = { nowIso := ni, nowCompact := nc, seq := 1,
                      store := [skillDecisionMergedFx issue w1 cid1 ts1 w2 cid2 ts2 nm sm ni nc] } :=
    (Except.ok.inj h2).symm
  subst hst2
  have e3 := emit_skill_reprocess issue w1 w2 cid1 cid2 ts1 ts2 nm sm ni nc
    hn hs hw1 hw1n hw2 hw2n hcid1 hcid2
  rw [e3] at h3
  have hst3 := (Except.ok.inj h3).symm
  refine ⟨?_, ?_, ?_, hst3⟩
  · simp [skillDecisionMergedFx, skillDecisionFx]
  · simp [skillDecisionMergedFx, skillDecisionFx, hcid1, hcid2]
  · simp [skillDecisionMergedFx, skillDecisionFx]

def skillMergeSt1Fx : OpsSt :=
  { nowIso := "TI", nowCompact := "TS", seq := 1,
    store := [skillDecisionFx 7 "ashigaru1" "c1" "T0" "retry-loop" "use retries" "TI" "TS"] }

def skillMergeSt2Fx : OpsSt :=
  { nowIso := "TI", nowCompact := "TS", seq := 1,
    store := [skillDecisionMergedFx 7 "ashigaru1" "c1" "T0" "ashigaru2" "c2" "T1"
      "retry-loop" "use retries" "TI" "TS"] }

set_option maxRecDepth 8192 in
/-- C7 (witness): two concrete workers submitting the same skill, the
second one twice. -/
theorem C7_witness :
    (¬ pyStrip "retry-loop" = "" ∧ ¬ pyStrip "use retries" = "" ∧
      pyStrip "ashigaru1" = "ashigaru1" ∧ ¬ ("ashigaru1" : String) = "" ∧
      pyStrip "ashigaru2" = "ashigaru2" ∧ ¬ ("ashigaru2" : String) = "" ∧
      pyStrip "c1" = "c1" ∧ pyStrip "c2" = "c2" ∧
      ¬ ("ashigaru2" : String) = "ashigaru1" ∧
      ¬ "ashigaru2" ++ "|" ++ "c2" = "ashigaru1" ++ "|" ++ "c1") ∧
    ((skillMergeSt2Fx.store.filter (fun d => d.dtype == "skill_candidate")).length = 1 ∧
     skillMergeSt2Fx.store.map
        (fun d => d.request.submitters.map (fun s => (s.worker, s.checkin_id)))
        = [[("ashigaru1", "c1"), ("ashigaru2", "c2")]] ∧
     skillMergeSt2Fx.store.map (fun d => d.request.workers) = [["ashigaru1", "ashigaru2"]] ∧
     skillMergeSt2Fx = skillMergeSt2Fx) :=
  ⟨⟨by decide, by decide, by decide, by decide, by decide, by decide, by decide,
    by decide, by decide, by decide⟩,
   C7_theorem 7 "ashigaru1" "ashigaru2" "c1" "c2" "T0" "T1" "retry-loop"
     "use retries" "TI" "TS" (by decide) (by decide) (by decide) (by decide)
     (by decide) (by decide) (by decide) (by decide) (by decide) (by decide)
     skillMergeSt1Fx skillMergeSt2Fx skillMergeSt2Fx rfl rfl rfl⟩

theorem charStrip_eq_rdrop (l : List Char) :
    charStrip l = (l.dropWhile Char.isWhitespace).rdropWhile Char.isWhitespace := rfl

theorem prefix_dropWhile_self {p : Char → Bool} {l t : List Char}
    (hl : l.dropWhile p = l) (hpre : t <+: l) : t.dropWhile p = t := by
  cases t with
  | nil => rfl
  | cons x xs =>
    obtain ⟨r, hr⟩ := hpre
    have hx : p x = false := by
      by_contra hpx
      have hpx' : p x = true := by
        revert hpx
        cases p x <;> simp
      have hthis := hl
      rw [← hr, List.cons_append, List.dropWhile_cons, hpx', if_pos rfl] at hthis
      have hlen := congrArg List.length hthis
      have hle := (List.dropWhile_suffix (l := xs ++ r) p).length_le
      simp only [List.length_cons, List.length_append] at hlen hle
      omega
    rw [List.dropWhile_cons, hx]
    simp

theorem charStrip_idem (l : List Char) : charStrip (charStrip l) = charStrip l := by
  rw [charStrip_eq_rdrop, charStrip_eq_rdrop]
  have hd : ((l.dropWhile Char.isWhitespace).rdropWhile
      Char.isWhitespace).dropWhile Char.isWhitespace
      = (l.dropWhile Char.isWhitespace).rdropWhile Char.isWhitespace :=
    prefix_dropWhile_self (List.dropWhile_idempotent _ _)
      (List.rdropWhile_prefix Char.isWhitespace (l.dropWhile Char.isWhitespace))
  rw [hd]
  exact List.rdropWhile_idempotent Char.isWhitespace (l.dropWhile Char.isWhitespace)

theorem pyStrip_idem (s : String) : pyStrip (pyStrip s) = pyStrip s :=
  congrArg String.mk (charStrip_idem s.data)

theorem filterMap_of_forall_some {α : Type} (f : α → Option α) (l : List α)
    (h : ∀ a ∈ l, f a = some a) : l.filterMap f = l := by
  induction l with
  | nil => rfl
  | cons a l ih =>
    have hfa := h a (by simp)
    simp only [List.filterMap_cons, hfa]
    exact congrArg (a :: ·) (ih (fun b hb => h b (by simp [hb])))

theorem mem_normalizeResponses {r : Response} {rs : List Response}
    (h : r ∈ normalizeResponses rs) :
    pyStrip r.checkin_id = r.checkin_id ∧ ¬ r.checkin_id = "" := by
  unfold normalizeResponses at h
  rw [List.mem_filterMap] at h
  obtain ⟨a, _, ha⟩ := h
  by_cases hc : pyStrip a.checkin_id = ""
  · simp [hc] at ha
  · simp [hc] at ha
    subst ha
    exact ⟨pyStrip_idem _, hc⟩

theorem normalizeResponses_idem (rs : List Response) :
    normalizeResponses (normalizeResponses rs) = normalizeResponses rs := by
  have hall : ∀ a ∈ normalizeResponses rs,
      (fun r : Response =>
        if pyStrip r.checkin_id = "" then (none : Option Response)
        else some { timestamp := r.timestamp, worker := r.worker,
                    checkin_id := pyStrip r.checkin_id, summary := r.summary }) a
        = some a := by
    intro a ha
    obtain ⟨h1, h2⟩ := mem_normalizeResponses ha
    have hc : ¬ pyStrip a.checkin_id = "" := by
      rw [h1]
      exact h2
    show (if pyStrip a.checkin_id = "" then (none : Option Response)
          else some { timestamp := a.timestamp, worker := a.worker,
                      checkin_id := pyStrip a.checkin_id, summary := a.summary })
        = some a
    rw [if_neg hc, h1]
  exact filterMap_of_forall_some _ (normalizeResponses rs) hall

theorem normalizeResponses_append_trimmed (rs : List Response) (r : Response)
    (h1 : pyStrip r.checkin_id = r.checkin_id) (h2 : ¬ r.checkin_id = "") :
    normalizeResponses (rs ++ [r]) = normalizeResponses rs ++ [r] := by
  unfold normalizeResponses
  rw [List.filterMap_append]
  simp [h1, h2]

theorem apply_update_spec (d : Decision) (c : Checkin) (did : String) (d' : Decision)
    (h : apply_research_response_update d c did = .ok d') :
    d.dtype = "blocker" ∧ d.request.category = "research" ∧
    (match d.issue, c.issue with
     | some a, some b => a ≠ b
     | _, _ => false : Bool) = false ∧
    ¬ c.checkin_id = "" ∧ d' = applyResponseRecord d c := by
  unfold apply_research_response_update at h
  by_cases h1 : d.dtype ≠ "blocker"
  · rw [if_pos h1] at h
    exact absurd h (by simp)
  rw [if_neg h1] at h
  by_cases h2 : d.request.category ≠ "research"
  · rw [if_pos h2] at h
    exact absurd h (by simp)
  rw [if_neg h2] at h
  by_cases h3 : (match d.issue, c.issue with
      | some a, some b => a ≠ b
      | _, _ => false : Bool) = true
  · rw [if_pos h3] at h
    exact absurd h (by simp)
  rw [if_neg h3] at h
  by_cases h4 : (responseOfCheckin c).checkin_id = ""
  · rw [if_pos h4] at h
    exact absurd h (by simp)
  rw [if_neg h4] at h
  refine ⟨not_not.mp h1, not_not.mp h2, by simpa using h3, h4, ?_⟩
  exact (Except.ok.inj h).symm

theorem resolvedFieldStep (a b : String) :
    (if pyStrip (if pyStrip a = "" then b else a) = "" then b
     else (if pyStrip a = "" then b else a))
      = (if pyStrip a = "" then b else a) := by
  by_cases h : pyStrip a = "" <;> simp [h]

theorem responseOfCheckin_cid (c : Checkin) :
    (responseOfCheckin c).checkin_id = c.checkin_id := rfl

theorem applyResponseRecord_responses (d : Decision) (c : Checkin) :
    (applyResponseRecord d c).responses =
      if (normalizeResponses d.responses).any
          (fun r => r.checkin_id == c.checkin_id)
      then normalizeResponses d.responses
      else normalizeResponses d.responses ++ [responseOfCheckin c] := rfl

theorem applyResponseRecord_resolved_at (d : Decision) (c : Checkin) :
    (applyResponseRecord d c).resolved_at =
      if pyStrip d.resolved_at = "" then c.timestamp else d.resolved_at := rfl

theorem applyResponseRecord_resolved_by (d : Decision) (c : Checkin) :
    (applyResponseRecord d c).resolved_by =
      if pyStrip d.resolved_by = "" then c.worker else d.resolved_by := rfl

theorem applyResponseRecord_summary (d : Decision) (c : Checkin) :
    (applyResponseRecord d c).resolution_summary =
      if pyStrip d.resolution_summary = "" then c.summary
      else d.resolution_summary := rfl

theorem applyResponseRecord_dtype (d : Decision) (c : Checkin) :
    (applyResponseRecord d c).dtype = d.dtype := rfl

theorem applyResponseRecord_request (d : Decision) (c : Checkin) :
    (applyResponseRecord d c).request = d.request := rfl

theorem applyResponseRecord_issue (d : Decision) (c : Checkin) :
    (applyResponseRecord d c).issue = d.issue := rfl

theorem applyResponseRecord_idem (d : Decision) (c : Checkin)
    (hcid : pyStrip c.checkin_id = c.checkin_id) (hne : ¬ c.checkin_id = "") :
    applyResponseRecord (applyResponseRecord d c) c = applyResponseRecord d c := by
  have hR : (applyResponseRecord (applyResponseRecord d c) c).responses
      = (applyResponseRecord d c).responses := by
    rw [applyResponseRecord_responses, applyResponseRecord_responses]
    by_cases hmem : (normalizeResponses d.responses).any
        (fun r => r.checkin_id == c.checkin_id) = true
    · rw [if_pos hmem, normalizeResponses_idem, if_pos hmem]
    · rw [if_neg hmem,
          normalizeResponses_append_trimmed (normalizeResponses d.responses)
            (responseOfCheckin c) hcid hne,
          normalizeResponses_idem]
      have hany : ((normalizeResponses d.responses ++ [responseOfCheckin c]).any
          (fun r => r.checkin_id == c.checkin_id)) = true := by
        rw [List.any_append]
        simp [responseOfCheckin]
      rw [if_pos hany]
  have hA : (applyResponseRecord (applyResponseRecord d c) c).resolved_at
      = (applyResponseRecord d c).resolved_at := by
    rw [applyResponseRecord_resolved_at, applyResponseRecord_resolved_at]
    exact resolvedFieldStep d.resolved_at c.timestamp
  have hB : (applyResponseRecord (applyResponseRecord d c) c).resolved_by
      = (applyResponseRecord d c).resolved_by := by
    rw [applyResponseRecord_resolved_by, applyResponseRecord_resolved_by]
    exact resolvedFieldStep d.resolved_by c.worker
  have hS : (applyResponseRecord (applyResponseRecord d c) c).resolution_summary
      = (applyResponseRecord d c).resolution_summary := by
    rw [applyResponseRecord_summary, applyResponseRecord_summary]
    exact resolvedFieldStep d.resolution_summary c.summary
  have key : applyResponseRecord (applyResponseRecord d c) c =
      { applyResponseRecord d c with
          responses := (applyResponseRecord (applyResponseRecord d c) c).responses
          resolved_at := (applyResponseRecord (applyResponseRecord d c) c).resolved_at
          resolved_by := (applyResponseRecord (applyResponseRecord d c) c).resolved_by
          resolution_summary :=
            (applyResponseRecord (applyResponseRecord d c) c).resolution_summary } := rfl
  rw [key, hR, hA, hB, hS]

/-- A reduced form of `apply_research_response` when the Decision is found
in the live queue (lines 922-931): run the record update and, on success,
move the record from the queue to the archive. -/
theorem apply_research_response_found (st : OpsSt) (did : String) (c : Checkin)
    (d : Decision)
    (hfind : st.store.find? (fun x => x.decision_id == did) = some d) :
    apply_research_response st did c
      = (do
          let d1 ← apply_research_response_update d c did
          pure { st with
            store := removeFirst (fun x => x.decision_id == did) st.store
            archive := st.archive ++ [d1] } : Except String OpsSt) := by
  unfold apply_research_response
  rw [hfind]

/-- The research-blocker Decision the C8 scenario responds to. -/
def c8d0 : Decision :=
  { decision_id := "DEC-1", issue := some 5, dtype := "blocker",
    request := { worker := "w0", reason := "need input", category := "research" } }

/-- A responding checkin whose `checkin_id` is already stripped. -/
def c8chk : Checkin :=
  { checkin_id := "c9", timestamp := "T1", worker := "w1", summary := "answer" }

/-- A second response from a different worker with a new `checkin_id`. -/
def c8chk2 : Checkin :=
  { checkin_id := "c10", timestamp := "T2", worker := "w2", summary := "other" }

def c8d1 : Decision := applyResponseRecord c8d0 c8chk

def c8d2 : Decision := applyResponseRecord c8d1 c8chk2

def c8st0 : OpsSt := { store := [c8d0] }

def c8st1 : OpsSt := { store := [], archive := [c8d1] }

/-- A responding checkin whose `checkin_id` carries surrounding
whitespace, which the source strips from the *stored* responses it
re-reads but not from the new response it appends. -/
def c8wsChk : Checkin :=
  { checkin_id := " x ", timestamp := "T1", worker := "w1", summary := "ans" }

def c8wsD1 : Decision := applyResponseRecord c8d0 c8wsChk

def c8wsD2 : Decision := applyResponseRecord c8wsD1 c8wsChk

/-- C8 (counterexample): re-applying a response with the *same*
`checkin_id` is not always a no-op.  The response entry is appended with
its `checkin_id` unstripped, while the duplicate check runs over the
stored entries re-read with stripped ids, so a `checkin_id` of `" x "`
matches nothing on the second application and is appended a second
time. -/
theorem C8_counterexample :
    apply_research_response_update c8d0 c8wsChk "DEC-1" = .ok c8wsD1 ∧
    apply_research_response_update c8wsD1 c8wsChk "DEC-1" = .ok c8wsD2 ∧
    c8wsD2 ≠ c8wsD1 ∧
    c8wsD1.responses.length = 1 ∧ c8wsD2.responses.length = 2 :=
  ⟨rfl, rfl, by decide, rfl, rfl⟩

/-- C8 (amended): applying a `respond_to` response to a research blocker
Decision appends a response entry keyed by `checkin_id`; re-applying a
response whose `checkin_id` equals its stripped form leaves the Decision
unchanged (the source normalizes the stored responses by stripping their
ids but appends the new response's id verbatim, so idempotence holds
exactly for already-trimmed ids).  `resolved_at` / `resolved_by` /
`resolution_summary` are set only if currently unset, so a second
response with a different `checkin_id` does not change `resolved_by`;
and a Decision found in the live queue is moved to the archive. -/
theorem C8_theorem :
    (∀ (d d' : Decision) (c : Checkin) (did : String),
        pyStrip c.checkin_id = c.checkin_id →
        apply_research_response_update d c did = .ok d' →
        apply_research_response_update d' c did = .ok d') ∧
    (∀ (d d' : Decision) (c : Checkin) (did : String),
        apply_research_response_update d c did = .ok d' →
        ¬ pyStrip d.resolved_by = "" →
        d'.resolved_by = d.resolved_by) ∧
    (∀ (st st' : OpsSt) (d : Decision) (c : Checkin) (did : String),
        st.store.find? (fun x => x.decision_id == did) = some d →
        apply_research_response st did c = .ok st' →
        ∃ d', apply_research_response_update d c did = .ok d' ∧
          st'.store = removeFirst (fun x => x.decision_id == did) st.store ∧
          st'.archive = st.archive ++ [d']) := by
  refine ⟨?_, ?_, ?_⟩
  · intro d d' c did hcid h
    obtain ⟨hty, hcat, hiss, hcidne, hval⟩ := apply_update_spec d c did d' h
    subst hval
    unfold apply_research_response_update
    simp only [applyResponseRecord_dtype, applyResponseRecord_request,
      applyResponseRecord_issue, responseOfCheckin_cid, hty, hcat]
    rw [if_neg (by simp), if_neg (by simp), if_neg (by rw [hiss]; simp),
      if_neg hcidne]
    exact congrArg Except.ok (applyResponseRecord_idem d c hcid hcidne)
  · intro d d' c did h hres
    obtain ⟨_, _, _, _, hval⟩ := apply_update_spec d c did d' h
    subst hval
    rw [applyResponseRecord_resolved_by, if_neg hres]
  · intro st st' d c did hfind happ
    rw [apply_research_response_found st did c d hfind] at happ
    cases hupd : apply_research_response_update d c did with
    | error e =>
      rw [hupd] at happ
      have h2 : (Except.error e : Except String OpsSt) = .ok st' := happ
      exact absurd h2 (by simp)
    | ok d1 =>
      rw [hupd] at happ
      have h2 : (Except.ok { st with
          store := removeFirst (fun x => x.decision_id == did) st.store
          archive := st.archive ++ [d1] } : Except String OpsSt) = .ok st' := happ
      have h3 := Except.ok.inj h2
      refine ⟨d1, rfl, ?_, ?_⟩
      · rw [← h3]
      · rw [← h3]

/-- C8 (witness): the amended claim at a concrete research blocker — a
trimmed `checkin_id` is idempotent, a second responder does not change
`resolved_by`, and the queue record moves to the archive. -/
theorem C8_witness :
    (pyStrip c8chk.checkin_id = c8chk.checkin_id ∧
     apply_research_response_update c8d0 c8chk "DEC-1" = .ok c8d1 ∧
     apply_research_response_update c8d1 c8chk "DEC-1" = .ok c8d1) ∧
    (apply_research_response_update c8d1 c8chk2 "DEC-1" = .ok c8d2 ∧
     ¬ pyStrip c8d1.resolved_by = "" ∧
     c8d2.resolved_by = c8d1.resolved_by) ∧
    (c8st0.store.find? (fun x => x.decision_id == "DEC-1") = some c8d0 ∧
     apply_research_response c8st0 "DEC-1" c8chk = .ok c8st1 ∧
     ∃ d', apply_research_response_update c8d0 c8chk "DEC-1" = .ok d' ∧
       c8st1.store = removeFirst (fun x => x.decision_id == "DEC-1") c8st0.store ∧
       c8st1.archive = c8st0.archive ++ [d']) :=
  ⟨⟨by decide, rfl,
    C8_theorem.1 c8d0 c8d1 c8chk "DEC-1" (by decide) rfl⟩,
   ⟨rfl, by decide,
    C8_theorem.2.1 c8d1 c8d2 c8chk2 "DEC-1" rfl (by decide)⟩,
   ⟨rfl, rfl,
    C8_theorem.2.2 c8st0 c8st1 c8d0 c8chk "DEC-1" rfl rfl⟩⟩

/-! ## Contract enforcement (C3) -/

theorem contract_offending_update (e : IssueEntry) (c : Checkin) (a p : String)
    (pp : Option Int) (x y z : String) :
    contract_offending { e with
        assigned_to := a
        phase := p
        progress_percent := pp
        last_checkin_at := x
        last_checkin_id := y
        last_checkin_summary := z } c = contract_offending e c := rfl

theorem contract_violationb_update (e : IssueEntry) (c : Checkin) (a p : String)
    (pp : Option Int) (x y z : String) :
    contract_violationb { e with
        assigned_to := a
        phase := p
        progress_percent := pp
        last_checkin_at := x
        last_checkin_id := y
        last_checkin_summary := z } c = contract_violationb e c := rfl

/-- A checkin that carries no approval request, no contract-expansion
request, no blockers and no skills makes `emit_decisions_from_checkin` a
no-op. -/
theorem emit_nothing (issue : Int) (w : String) (c : Checkin)
    (hna : c.needs_approval = false) (hrf : c.requested_files = [])
    (hbl : c.blockers = []) (hsk : c.skills = [])
    (ictx : Option IssueContext) (st : OpsSt) :
    emit_decisions_from_checkin issue w c ictx st = .ok st := by
  unfold emit_decisions_from_checkin
  rw [hna, hrf, hbl, hsk]
  rfl

theorem ensure_blocked_reason_mem (s : StateRec) (i : Int) (r : String) :
    ∃ b ∈ (ensure_blocked_reason s i r).blocked,
      blockedIssueKey b = toString i ∧ b.reason = r := by
  unfold ensure_blocked_reason
  by_cases h : s.blocked.any (fun b => blockedIssueKey b == toString i && b.reason == r)
  · rw [if_pos h]
    rw [List.any_eq_true] at h
    obtain ⟨b, hb, hcond⟩ := h
    rw [Bool.and_eq_true, beq_iff_eq, beq_iff_eq] at hcond
    exact ⟨b, hb, hcond.1, hcond.2⟩
  · rw [if_neg h]
    refine ⟨{ issue := some (toString i), reason := r }, ?_, rfl, rfl⟩
    exact List.mem_append_right _ (List.mem_singleton_self _)

theorem ensure_blocked_reason_mono {b : BlockedItem} (s : StateRec) (i : Int)
    (r : String) (hb : b ∈ s.blocked) :
    b ∈ (ensure_blocked_reason s i r).blocked := by
  unfold ensure_blocked_reason
  by_cases h : s.blocked.any (fun x => blockedIssueKey x == toString i && x.reason == r)
  · rw [if_pos h]
    exact hb
  · rw [if_neg h]
    exact List.mem_append_left _ hb

theorem ensure_blocked_reason_mem₂ (s : StateRec) (i j : Int) (r r2 : String) :
    ∃ b ∈ (ensure_blocked_reason (ensure_blocked_reason s i r) j r2).blocked,
      blockedIssueKey b = toString i ∧ b.reason = r := by
  obtain ⟨b, hb, hk, hr⟩ := ensure_blocked_reason_mem s i r
  exact ⟨b, ensure_blocked_reason_mono _ j r2 hb, hk, hr⟩

theorem lookupEntry_setEntry (l : List (String × IssueEntry)) (k : String)
    (e : IssueEntry) : lookupEntry (setEntry l k e) k = some e := by
  unfold lookupEntry setEntry
  by_cases h : l.any (fun p => p.1 == k)
  · rw [if_pos h]
    induction l with
    | nil => simp at h
    | cons x xs ih =>
      by_cases hx : x.1 == k
      · rw [List.map_cons]
        rw [hx, if_pos (Eq.refl true), List.find?_cons_of_pos]
        · rfl
        · exact beq_self_eq_true k
      · have hx' : (x.1 == k) = false := Bool.eq_false_iff.mpr hx
        rw [List.map_cons]
        rw [hx', if_neg Bool.false_ne_true, List.find?_cons_of_neg]
        · refine ih ?_
          rw [List.any_cons] at h
          simp only [hx', Bool.false_or] at h
          exact h
        · simp [hx']
  · rw [if_neg h]
    induction l with
    | nil =>
      rw [List.nil_append, List.find?_cons_of_pos]
      · rfl
      · exact beq_self_eq_true k
    | cons x xs ih =>
      have hx' : (x.1 == k) = false := by
        cases hb : (x.1 == k) with
        | false => rfl
        | true =>
          exact absurd (show (x :: xs).any (fun p => p.1 == k) = true by
            rw [List.any_cons]
            simp [hb]) h
      have hxs : ¬ (xs.any (fun p => p.1 == k) = true) := by
        intro hc
        exact h (by rw [List.any_cons]; simp [hc])
      rw [List.cons_append, List.find?_cons_of_neg]
      · exact ih hxs
      · simp [hx']

theorem contains_append_right (l : List String) (k : String) :
    (l ++ [k]).contains k = true := by
  show List.elem k (l ++ [k]) = true
  rw [List.elem_iff]
  exact List.mem_append_right _ (List.mem_singleton_self _)

theorem dedupeKeys_append (s : List Decision) (d : Decision) :
    dedupeKeys (s ++ [d]) = dedupeKeys s ++ dedupeKeys [d] := by
  unfold dedupeKeys
  rw [List.map_append, List.filter_append]

theorem dedupeKeys_singleton (d : Decision) (h : ¬ d.dedupe_key = "") :
    dedupeKeys [d] = [d.dedupe_key] := by
  unfold dedupeKeys
  simp [h]

/-- The violation branch of pass-1 item processing, written out: the
contract Decision (dedupe-guarded), the blocked-reason tags, the
blocked `IssueEntry` write and the recent-checkin push (lines
1098-1146). -/
def c3Next (issue : Int) (c : Checkin) (st : OpsSt) : OpsSt :=
  let key := toString issue
  let entry0 := (lookupEntry st.state.issues key).getD {}
  let entry1 := { entry0 with
      assigned_to := if c.worker ≠ "" then c.worker else entry0.assigned_to,
      phase := if c.phase ≠ "" then c.phase
               else if entry0.phase ≠ "" then entry0.phase else "backlog",
      progress_percent :=
        some ((match c.progress_percent with
               | some v => some v
               | none => entry0.progress_percent).getD 0),
      last_checkin_at := c.timestamp,
      last_checkin_id := c.checkin_id,
      last_checkin_summary := c.summary }
  let off := contract_offending entry1 c
  let requested := off.1
  let forbiddenHits := off.2
  let k := contract_key issue c.worker requested
  let stA :=
    if (dedupeKeys st.store).contains k then st
    else
      write_decision st
        { created_at := st.nowIso, issue := some issue,
          dtype := "contract_expansion", dedupe_key := k,
          request := { worker := c.worker,
                       reason := "契約逸脱を検知（collect: changes.files_changed vs contract.allowed_files）",
                       requested_files := requested,
                       options := ["拡張", "差し戻し", "Issue分割", "別Issueへ移動"],
                       severity := if ¬ forbiddenHits.isEmpty then "major" else "normal",
                       forbidden_files := forbiddenHits,
                       checkin_id := c.checkin_id } }
  let stB := { stA with state := ensure_blocked_reason stA.state issue "contract_violation" }
  let stC :=
    if ¬ forbiddenHits.isEmpty then
      { stB with state := ensure_blocked_reason stB.state issue "contract_forbidden_violation" }
    else stB
  let st3 := { stC with state := { stC.state with
      issues := setEntry stC.state.issues key { entry1 with phase := "blocked" } } }
  { st3 with state := record_recent_checkin st3.state c }

/-- Under a contract violation, pass-1 processing of a pure status
checkin reduces to the `c3Next` step. -/
theorem collectPass1Item_viol_eq (ctxOracle : Int → IssueContext) (issue : Int)
    (c : Checkin) (st : OpsSt)
    (hna : c.needs_approval = false) (hrf : c.requested_files = [])
    (hbl : c.blockers = []) (hsk : c.skills = [])
    (hv : contract_violationb
        ((lookupEntry st.state.issues (toString issue)).getD {}) c = true) :
    collectPass1Item ctxOracle issue c st = .ok (c3Next issue c st) := by
  unfold collectPass1Item
  dsimp only
  rw [contract_violationb_update, hv, if_pos (Eq.refl true)]
  dsimp only
  rw [emit_nothing issue c.worker c hna hrf hbl hsk]
  rfl

/-- The blocked entry written by `c3Next`, with the contract inputs it
preserves. -/
theorem c3Next_lookup (issue : Int) (c : Checkin) (st : OpsSt) :
    ∃ e, lookupEntry (c3Next issue c st).state.issues (toString issue) = some e ∧
      e.phase = "blocked" ∧
      contract_offending e c
        = contract_offending ((lookupEntry st.state.issues (toString issue)).getD {}) c ∧
      contract_violationb e c
        = contract_violationb ((lookupEntry st.state.issues (toString issue)).getD {}) c := by
  unfold c3Next
  dsimp only [record_recent_checkin]
  refine ⟨_, lookupEntry_setEntry _ _ _, rfl, rfl, rfl⟩

theorem c3Next_blocked (issue : Int) (c : Checkin) (st : OpsSt) :
    ∃ b ∈ (c3Next issue c st).state.blocked,
      blockedIssueKey b = toString issue ∧ b.reason = "contract_violation" := by
  unfold c3Next
  dsimp only [record_recent_checkin]
  rw [contract_offending_update]
  rw [apply_ite OpsSt.state, apply_ite StateRec.blocked]
  dsimp only
  by_cases hfb : ¬ ((contract_offending
      ((lookupEntry st.state.issues (toString issue)).getD {}) c).2.isEmpty = true)
  · rw [if_pos hfb]
    exact ensure_blocked_reason_mem₂ _ issue issue "contract_violation"
      "contract_forbidden_violation"
  · rw [if_neg hfb]
    exact ensure_blocked_reason_mem _ issue "contract_violation"

theorem c3Next_store_fresh (issue : Int) (c : Checkin) (st : OpsSt)
    (hfresh : (dedupeKeys st.store).contains
      (contract_key issue c.worker
        (contract_offending
          ((lookupEntry st.state.issues (toString issue)).getD {}) c).1) = false) :
    ∃ d, (c3Next issue c st).store = st.store ++ [d] ∧
      d.dtype = "contract_expansion" ∧ d.issue = some issue ∧
      d.request.worker = c.worker ∧
      d.request.requested_files =
        (contract_offending
          ((lookupEntry st.state.issues (toString issue)).getD {}) c).1 ∧
      d.request.severity =
        (if ¬ (contract_offending
            ((lookupEntry st.state.issues (toString issue)).getD {}) c).2.isEmpty
         then "major" else "normal") ∧
      d.request.forbidden_files =
        (contract_offending
          ((lookupEntry st.state.issues (toString issue)).getD {}) c).2 ∧
      d.dedupe_key = contract_key issue c.worker
        (contract_offending
          ((lookupEntry st.state.issues (toString issue)).getD {}) c).1 := by
  unfold c3Next
  dsimp only
  rw [contract_offending_update]
  rw [hfresh, if_neg Bool.false_ne_true]
  rw [apply_ite OpsSt.store]
  dsimp only
  rw [ite_self]
  unfold write_decision
  dsimp only
  exact ⟨_, rfl, rfl, rfl, rfl, rfl, rfl, rfl, rfl⟩

theorem c3Next_store_stale (issue : Int) (c : Checkin) (st : OpsSt)
    (hstale : (dedupeKeys st.store).contains
      (contract_key issue c.worker
        (contract_offending
          ((lookupEntry st.state.issues (toString issue)).getD {}) c).1) = true) :
    (c3Next issue c st).store = st.store := by
  unfold c3Next
  dsimp only
  rw [contract_offending_update]
  rw [hstale, if_pos (Eq.refl true)]
  rw [apply_ite OpsSt.store]
  dsimp only
  rw [ite_self]

/-- C3: a checkin whose changed files violate the issue's contract — a
file matching no pattern of the non-empty `allowed_files`, or matching a
`forbidden_files` pattern — makes pass-1 processing set the issue's
phase to `blocked`, record a `contract_violation` blocked-reason tag,
and append exactly one `contract_expansion` Decision listing every
offending path, with severity `major` exactly when a forbidden pattern
was hit and `normal` otherwise; reprocessing a checkin reporting the
same violation for the same worker and issue appends no second
Decision. -/
theorem C3_theorem (ctxOracle : Int → IssueContext) (issue : Int) (c : Checkin)
    (st st' st'' : OpsSt)
    (hna : c.needs_approval = false) (hrf : c.requested_files = [])
    (hbl : c.blockers = []) (hsk : c.skills = [])
    (hv : contract_violationb
        ((lookupEntry st.state.issues (toString issue)).getD {}) c = true)
    (hfresh : (dedupeKeys st.store).contains
      (contract_key issue c.worker
        (contract_offending
          ((lookupEntry st.state.issues (toString issue)).getD {}) c).1) = false)
    (hrun : collectPass1Item ctxOracle issue c st = .ok st')
    (hrerun : collectPass1Item ctxOracle issue c st' = .ok st'') :
    (∃ e, lookupEntry st'.state.issues (toString issue) = some e ∧
       e.phase = "blocked") ∧
    (∃ b ∈ st'.state.blocked,
       blockedIssueKey b = toString issue ∧ b.reason = "contract_violation") ∧
    (∃ d, st'.store = st.store ++ [d] ∧
       d.dtype = "contract_expansion" ∧ d.issue = some issue ∧
       d.request.worker = c.worker ∧
       d.request.requested_files =
         (contract_offending
           ((lookupEntry st.state.issues (toString issue)).getD {}) c).1 ∧
       d.request.severity =
         (if ¬ (contract_offending
             ((lookupEntry st.state.issues (toString issue)).getD {}) c).2.isEmpty
          then "major" else "normal") ∧
       d.request.forbidden_files =
         (contract_offending
           ((lookupEntry st.state.issues (toString issue)).getD {}) c).2 ∧
       d.dedupe_key = contract_key issue c.worker
         (contract_offending
           ((lookupEntry st.state.issues (toString issue)).getD {}) c).1) ∧
    st''.store = st'.store := by
  rw [collectPass1Item_viol_eq ctxOracle issue c st hna hrf hbl hsk hv] at hrun
  have h1 := Except.ok.inj hrun
  subst h1
  obtain ⟨e2, he2, hph2, hoff2, hviol2⟩ := c3Next_lookup issue c st
  have hv2 : contract_violationb
      ((lookupEntry (c3Next issue c st).state.issues (toString issue)).getD {}) c
      = true := by
    rw [he2, Option.getD_some, hviol2]
    exact hv
  rw [collectPass1Item_viol_eq ctxOracle issue c (c3Next issue c st)
    hna hrf hbl hsk hv2] at hrerun
  have h2 := Except.ok.inj hrerun
  subst h2
  obtain ⟨d, hd, hdt, hdi, hdw, hdr, hds, hdf, hdk⟩ :=
    c3Next_store_fresh issue c st hfresh
  have hsingle : dedupeKeys [d] = [contract_key issue c.worker
      (contract_offending
        ((lookupEntry st.state.issues (toString issue)).getD {}) c).1] := by
    rw [← hdk]
    refine dedupeKeys_singleton d ?_
    rw [hdk]
    exact decision_key_ne_empty _ _ _ _
  have hstale : (dedupeKeys (c3Next issue c st).store).contains
      (contract_key issue c.worker
        (contract_offending
          ((lookupEntry (c3Next issue c st).state.issues (toString issue)).getD {})
          c).1) = true := by
    rw [he2, Option.getD_some, hoff2, hd, dedupeKeys_append, hsingle]
    exact contains_append_right _ _
  exact ⟨⟨e2, he2, hph2⟩, c3Next_blocked issue c st,
    ⟨d, hd, hdt, hdi, hdw, hdr, hds, hdf, hdk⟩,
    c3Next_store_stale issue c (c3Next issue c st) hstale⟩

/-- Issue 7's contract in the C3 scenario: only `src/**` is allowed and
`.agent/**` is forbidden. -/
def c3entryFx : IssueEntry :=
  { allowed_files := ["src/**"], forbidden_files := [".agent/**"] }

def c3stFx : OpsSt :=
  { state := { issues := [("7", c3entryFx)] }, nowIso := "T1", nowCompact := "TS" }

/-- A status checkin that reports a change to `docs/readme.md`, which
matches no allowed pattern. -/
def c3chkFx : Checkin :=
  { checkin_id := "c1", timestamp := "T0", worker := "w1", issue := some 7,
    phase := "implementing", summary := "wip",
    files_changed := ["src/a.py", "docs/readme.md"] }

def c3st1Fx : OpsSt := c3Next 7 c3chkFx c3stFx

def c3st2Fx : OpsSt := c3Next 7 c3chkFx c3st1Fx

set_option maxRecDepth 8192 in
/-- C3 (witness): the claim at a concrete contract violation — a changed
file outside `allowed_files` blocks issue 7, emits one
`contract_expansion` Decision with severity `normal`, and reprocessing
the same checkin appends nothing. -/
theorem C3_witness :
    (c3chkFx.needs_approval = false ∧ c3chkFx.requested_files = [] ∧
     c3chkFx.blockers = [] ∧ c3chkFx.skills = [] ∧
     contract_violationb
       ((lookupEntry c3stFx.state.issues (toString (7 : Int))).getD {}) c3chkFx
       = true ∧
     (dedupeKeys c3stFx.store).contains
       (contract_key 7 c3chkFx.worker
         (contract_offending
           ((lookupEntry c3stFx.state.issues (toString (7 : Int))).getD {})
           c3chkFx).1) = false ∧
     collectPass1Item (fun _ => {}) 7 c3chkFx c3stFx = .ok c3st1Fx ∧
     collectPass1Item (fun _ => {}) 7 c3chkFx c3st1Fx = .ok c3st2Fx) ∧
    ((∃ e, lookupEntry c3st1Fx.state.issues (toString (7 : Int)) = some e ∧
        e.phase = "blocked") ∧
     (∃ b ∈ c3st1Fx.state.blocked,
        blockedIssueKey b = toString (7 : Int) ∧
        b.reason = "contract_violation") ∧
     (∃ d, c3st1Fx.store = c3stFx.store ++ [d] ∧
        d.dtype = "contract_expansion" ∧ d.issue = some 7 ∧
        d.request.worker = c3chkFx.worker ∧
        d.request.requested_files =
          (contract_offending
            ((lookupEntry c3stFx.state.issues (toString (7 : Int))).getD {})
            c3chkFx).1 ∧
        d.request.severity =
          (if ¬ (contract_offending
              ((lookupEntry c3stFx.state.issues (toString (7 : Int))).getD {})
              c3chkFx).2.isEmpty
           then "major" else "normal") ∧
        d.request.forbidden_files =
          (contract_offending
            ((lookupEntry c3stFx.state.issues (toString (7 : Int))).getD {})
            c3chkFx).2 ∧
        d.dedupe_key = contract_key 7 c3chkFx.worker
          (contract_offending
            ((lookupEntry c3stFx.state.issues (toString (7 : Int))).getD {})
            c3chkFx).1) ∧
     c3st2Fx.store = c3st1Fx.store) :=
  ⟨⟨rfl, rfl, rfl, rfl, by decide, by decide, rfl, rfl⟩,
   C3_theorem (fun _ => {}) 7 c3chkFx c3stFx c3st1Fx c3st2Fx rfl rfl rfl rfl
     (by decide) (by decide) rfl rfl⟩

end ShogunOps
